import Mathlib

/-!
# stapled: a shallow embedding of the fetch / verify / configuration code

The definitions below follow the Go sources

* `ocsp/ocsp.go`   (`VerifyResponse`, `parseCacheControl`, `randomResponder`, `Fetch`)
* `server.go`      (`stapled.Response`)
* `config.go`      (`CertDefToEntryDef`)
* `main.go`        (the timeout / base-backoff computation of `main`)
* `memCache/issuerCache.go` (`issuerCache.get`, `issuerCache.add`)

Conventions.  A Go `string` is a Lean `String` (processed as its list of
characters; every delimiter the code looks for is ASCII).  A `[]byte` is a
`List Nat` of byte values, and a possibly-nil `[]byte` is an `Option` of that.
Go `int`, `int64` and `time.Duration` are `Int`, with `wrapInt64` applied where
the Go arithmetic can overflow.  A `time.Time` is an `Int` instant.  Calls that
leave the program (HTTP, files, the random source, the context) are explicit
arguments.
-/

set_option autoImplicit false

namespace Stapled

/-! ## Machine integers and durations -/

/-- The int64 value that Go arithmetic yields for the mathematical result `x`. -/
def wrapInt64 (x : Int) : Int :=
  (x + 9223372036854775808) % 18446744073709551616 - 9223372036854775808

/-- Range of `int64` (and of `int` on a 64-bit platform). -/
def isInt64 (x : Int) : Prop :=
  -9223372036854775808 ≤ x ∧ x < 9223372036854775808

instance (x : Int) : Decidable (isInt64 x) := by
  unfold isInt64; exact inferInstance

/-- Value of `time.Second`, in nanoseconds. -/
def Second : Int := 1000000000

/-- Go `a * b` on `time.Duration` (an int64). -/
def mulDuration (a b : Int) : Int := wrapInt64 (a * b)

/-! ## `ocsp.go`: `VerifyResponse` -/

/-- Instants of `time.Time`, on one time line. -/
abbrev Time := Int

/-- The fields of `ocsp.Response` that the code reads. -/
structure Response where
  ThisUpdate : Time
  NextUpdate : Time
  SerialNumber : Int
deriving DecidableEq, Repr

/-- Arguments handed to `fmt.Errorf`. -/
inductive Arg where
  | time (t : Time)
  | bytes (b : List Nat)
  | str (s : String)
deriving DecidableEq, Repr

/-- An error built by `fmt.Errorf(format, args...)`. -/
structure GoError where
  format : String
  args : List Arg
deriving DecidableEq, Repr

/-- Result of `(*big.Int).Bytes`: big-endian bytes of the absolute value. -/
def bigBytes (x : Int) : List Nat := (Nat.digits 256 x.natAbs).reverse

/-- `VerifyResponse` of `ocsp.go`; `none` is the nil error. -/
def VerifyResponse (now : Time) (serial : Int) (resp : Response) : Option GoError :=
  if resp.ThisUpdate > now then
    some ⟨"malformed OCSP response: ThisUpdate is in the future (%s after %s)",
      [.time resp.ThisUpdate, .time now]⟩
  else if resp.NextUpdate < now then
    some ⟨"stale OCSP response: NextUpdate is in the past (%s before %s)",
      [.time resp.NextUpdate, .time now]⟩
  else if serial ≠ resp.SerialNumber then
    some ⟨"malformed OCSP response: Serial numbers don't match (wanted %x, got %x)",
      [.bytes (bigBytes serial), .bytes (bigBytes resp.SerialNumber)]⟩
  else
    none

/-! ## `main.go`: fetch timeout and base backoff -/

/-- The `Fetcher` section of the configuration. -/
structure FetcherConfig where
  Timeout : String
  BaseBackoff : String
  Proxy : String
  UpstreamStapleds : List String
deriving DecidableEq, Repr

/-- One of the two identical blocks of `main` (lines 34-51): the default
`time.Second * time.Duration(10)`, replaced by `time.Second * time.Duration(d)`
when the configuration string is non-empty and `time.ParseDuration` yields `d`.
`none` stands for the `os.Exit(1)` taken when parsing fails. -/
def configuredDuration (ParseDuration : String → Except String Int) (s : String) :
    Option Int :=
  if s ≠ "" then
    match ParseDuration s with
    | .error _ => none
    | .ok d => some (mulDuration Second d)
  else
    some (mulDuration Second 10)

/-- The pair `(baseBackoff, timeout)` that `main` passes on. -/
def mainDurations (ParseDuration : String → Except String Int) (cfg : FetcherConfig) :
    Option (Int × Int) :=
  match configuredDuration ParseDuration cfg.BaseBackoff with
  | none => none
  | some baseBackoff =>
    match configuredDuration ParseDuration cfg.Timeout with
    | none => none
    | some timeout => some (baseBackoff, timeout)

/-! ## Library functions the code calls: `strings`, `strconv`, `encoding/*`, `net/url` -/

/-- Go `len(s)` of a string: its length in bytes. -/
def byteLen : List Char → Nat
  | [] => 0
  | c :: cs => c.utf8Size + byteLen cs

/-- Go `strings.Replace(h, " ", "", -1)`. -/
def removeSpaces (h : List Char) : List Char :=
  h.filter (fun c => c ≠ ' ')

/-- Go `strings.Split(h, ",")`; the result always has at least one piece. -/
def splitComma : List Char → List (List Char)
  | [] => [[]]
  | c :: cs =>
    match splitComma cs with
    | [] => if c = ',' then [[], []] else [[c]]
    | p :: ps => if c = ',' then [] :: p :: ps else (c :: p) :: ps

/-- Go `strings.HasPrefix(p, pre)`. -/
def HasPrefix (p pre : List Char) : Bool := pre.isPrefixOf p

/-- A byte in `'0'..'9'`. -/
def isDigit (c : Char) : Bool := decide ('0' ≤ c) && decide (c ≤ '9')

/-- Go `c - '0'` for a digit. -/
def digitVal (c : Char) : Nat := c.toNat - 48

/-- The two `strconv` error kinds, `ErrSyntax` and `ErrRange`. -/
inductive NumError where
  | invalid
  | outOfRange
deriving DecidableEq, Repr

/-- Largest `uint64`. -/
def maxUint64 : Nat := 18446744073709551615

/-- The digit loop of `strconv.ParseUint(s, 10, 64)`, with accumulator `n`:
a byte that is no decimal digit is a syntax error with value 0; an overflow of
the accumulator returns at once with `maxUint64` and a range error, before any
later byte is looked at. -/
def parseUintLoop : List Char → Nat → Nat × Option NumError
  | [], n => (n, none)
  | c :: cs, n =>
    if isDigit c then
      if n ≥ maxUint64 / 10 + 1 then
        (maxUint64, some .outOfRange)
      else
        let n10 := n * 10
        let n1 := (n10 + digitVal c) % 18446744073709551616
        if n1 < n10 ∨ n1 > maxUint64 then
          (maxUint64, some .outOfRange)
        else
          parseUintLoop cs n1
    else
      (0, some .invalid)

/-- Go `strconv.ParseUint(s, 10, 64)`. -/
def ParseUint (s : List Char) : Nat × Option NumError :=
  if s = [] then (0, some .invalid) else parseUintLoop s 0

/-- Go `strconv.ParseInt(s, 10, 0)` with 64-bit `int`. -/
def ParseInt (s : List Char) : Int × Option NumError :=
  match s with
  | [] => (0, some .invalid)
  | c :: cs =>
    let neg := decide (c = '-')
    let body := if c = '+' ∨ c = '-' then cs else s
    match ParseUint body with
    | (_, some .invalid) => (0, some .invalid)
    | (un, _) =>
      if !neg ∧ un ≥ 9223372036854775808 then
        (9223372036854775807, some .outOfRange)
      else if neg ∧ un > 9223372036854775808 then
        (-9223372036854775808, some .outOfRange)
      else
        (if neg then -(un : Int) else (un : Int), none)

/-- The loop of the fast path of `strconv.Atoi`. -/
def atoiFastLoop : List Char → Int → Option Int
  | [], n => some n
  | c :: cs, n => if isDigit c then atoiFastLoop cs (n * 10 + digitVal c) else none

/-- Go `strconv.Atoi(s)` with 64-bit `int`: the value and the error (`none` is
nil).  Inputs of 1 to 18 bytes take the fast path, the others `ParseInt`. -/
def Atoi (s : List Char) : Int × Option NumError :=
  if 0 < byteLen s ∧ byteLen s < 19 then
    match s with
    | [] => (0, some .invalid)
    | c :: cs =>
      let body := if c = '-' ∨ c = '+' then cs else s
      if (c = '-' ∨ c = '+') ∧ body = [] then (0, some .invalid)
      else
        match atoiFastLoop body 0 with
        | none => (0, some .invalid)
        | some n => (if c = '-' then -n else n, none)
  else
    ParseInt s

/-- `parseCacheControl` of `ocsp.go`. -/
def parseCacheControl (h : String) : Int :=
  (splitComma (removeSpaces h.toList)).foldl
    (fun maxAge p => if HasPrefix p "max-age=".toList then (Atoi (p.drop 8)).1 else maxAge) 0

/-- Alphabet of `base64.StdEncoding`. -/
def encodeStd : List Char :=
  "ABCDEFGHIJKLMNOPQRSTUVWXYZabcdefghijklmnopqrstuvwxyz0123456789+/".toList

/-- Alphabet of `base64.URLEncoding` (base64url). -/
def encodeURL : List Char :=
  "ABCDEFGHIJKLMNOPQRSTUVWXYZabcdefghijklmnopqrstuvwxyz0123456789-_".toList

/-- Go `(*base64.Encoding).EncodeToString` for a padded encoding with the given
alphabet. -/
def base64Encode (alphabet : List Char) : List Nat → List Char
  | [] => []
  | [a] =>
    [alphabet.getD (a / 4) 'A', alphabet.getD (a % 4 * 16) 'A', '=', '=']
  | [a, b] =>
    [alphabet.getD (a / 4) 'A', alphabet.getD (a % 4 * 16 + b / 16) 'A',
      alphabet.getD (b % 16 * 4) 'A', '=']
  | a :: b :: c :: rest =>
    alphabet.getD (a / 4) 'A' :: alphabet.getD (a % 4 * 16 + b / 16) 'A' ::
      alphabet.getD (b % 16 * 4 + c / 64) 'A' :: alphabet.getD (c % 64) 'A' ::
      base64Encode alphabet rest

/-- Upper-case hexadecimal digit, as in `net/url`. -/
def upperhex (n : Nat) : Char := "0123456789ABCDEF".toList.getD n '0'

/-- Go `url.shouldEscape(c, encodeQueryComponent)`: everything but the
unreserved characters is escaped. -/
def shouldEscape (c : Char) : Bool :=
  !(c.isAlphanum || c = '-' || c = '_' || c = '.' || c = '~')

/-- Go `url.QueryEscape` on ASCII text (which base64 output is): a space
becomes `+`, any other escaped byte becomes `%XX`. -/
def QueryEscape (s : List Char) : List Char :=
  s.flatMap fun c =>
    if c = ' ' then ['+']
    else if shouldEscape c then ['%', upperhex (c.toNat / 16), upperhex (c.toNat % 16)]
    else [c]

/-- Value of one hexadecimal digit, as `encoding/hex` reads it. -/
def fromHexChar (c : Char) : Option Nat :=
  if '0' ≤ c ∧ c ≤ '9' then some (c.toNat - 48)
  else if 'a' ≤ c ∧ c ≤ 'f' then some (c.toNat - 97 + 10)
  else if 'A' ≤ c ∧ c ≤ 'F' then some (c.toNat - 65 + 10)
  else none

/-- Go `hex.DecodeString`; `none` is either of its errors. -/
def hexDecode : List Char → Option (List Nat)
  | [] => some []
  | [_] => none
  | p :: q :: rest =>
    match fromHexChar p, fromHexChar q with
    | some a, some b =>
      match hexDecode rest with
      | some bs => some ((a * 16 + b) :: bs)
      | none => none
    | _, _ => none

/-- Go `(*big.Int).SetBytes`: the bytes read as a big-endian unsigned integer. -/
def SetBytes (buf : List Nat) : Int :=
  buf.foldl (fun (acc : Int) (b : Nat) => acc * 256 + (b : Int)) 0

/-! ## `ocsp.go`: `randomResponder` and `Fetch` -/

/-- `randomResponder` of `ocsp.go`; `rnd` is the value `mrand.Intn` returns
(below the length of the list).  `none` stands for the run-time fault on an
empty list. -/
def randomResponder (rnd : Nat) (responders : List String) : Option String :=
  if responders.length = 0 then none else responders.get? (rnd % responders.length)

/-- An `*http.Request` as `Fetch` builds it. -/
structure HttpRequest where
  method : String
  url : String
  header : List (String × String)
deriving DecidableEq, Repr

/-- What `Fetch` reads of an `*http.Response`: the status code, the values
`resp.Header.Get` returns for three headers (`""` when absent) and the result of
`ioutil.ReadAll(resp.Body)` (`none` when reading fails). -/
structure HttpResponse where
  StatusCode : Int
  RetryAfter : String
  ETag : String
  CacheControl : String
  Body : Option (List Nat)
deriving DecidableEq, Repr

/-- What the outside world does during one iteration of the loop of `Fetch`. -/
inductive Step where
  /-- the `select` takes `ctx.Done()` -/
  | ctxDone
  /-- the timer fires and `client.Do` returns an error -/
  | doErr
  /-- the timer fires and `client.Do` returns this reply -/
  | reply (r : HttpResponse)
deriving DecidableEq, Repr

/-- Error of `ocsp.ParseResponse`: an `ocsp.ResponseError` or any other. -/
inductive ParseError where
  | responseError (status : String)
  | other (msg : String)
deriving DecidableEq, Repr

/-- The collaborators of `Fetch`: `http.NewRequest` (its error for a URL, `none`
when it succeeds), `ocsp.ParseResponse(_, issuer)` and `ctx.Err()`. -/
structure FetchEnv where
  NewRequestErr : String → Option String
  ParseResponse : List Nat → Except ParseError Response
  ctxErr : String

/-- The non-nil errors `Fetch` returns. -/
inductive FetchError where
  | ctx (e : String)
  | newRequest (e : String)
deriving DecidableEq, Repr

/-- The values `Fetch` returns beside a nil error. -/
structure FetchOk where
  resp : Response
  body : List Nat
  eTag : String
  maxAge : Int
deriving DecidableEq, Repr

/-- What an observer sees of a run of `Fetch`. -/
inductive Event where
  /-- `time.NewTimer(d)`, with `d` in nanoseconds -/
  | timer (d : Int)
  /-- `client.Do(req)` -/
  | send (req : HttpRequest)
deriving DecidableEq, Repr

deriving instance DecidableEq for Except

/-- A run of `Fetch`: the events, and the returned values (`none` while the loop
is still running when the script of steps ends). -/
structure FetchRun where
  events : List Event
  result : Option (Except FetchError FetchOk)
deriving DecidableEq, Repr

/-- Put events in front of a run. -/
def FetchRun.after (evs : List Event) (r : FetchRun) : FetchRun :=
  ⟨evs ++ r.events, r.result⟩

/-- The request built at lines 70-84 of `ocsp.go`. -/
def buildRequest (responder : String) (request : List Nat) (etag : String) : HttpRequest :=
  { method := "GET"
    url := responder ++ "/" ++ String.mk (QueryEscape (base64Encode encodeStd request))
    header := if etag ≠ "" then [("If-None-Match", etag)] else [] }

/-- The `for` loop of `Fetch`, one iteration per step of the script;
`backoffSeconds` is the value of that variable at the top of the iteration.
(The reset of `backoffSeconds` to 0 after the wait is not shown: every path
that reaches the next iteration assigns the variable first.) -/
def fetchLoop (env : FetchEnv) (responder : String) (request : List Nat) (etag : String) :
    Int → List Step → FetchRun
  | _, [] => ⟨[], none⟩
  | backoffSeconds, s :: rest =>
    let timer := Event.timer (mulDuration backoffSeconds Second)
    match s with
    | .ctxDone => ⟨[timer], some (.error (.ctx env.ctxErr))⟩
    | .doErr =>
      let req := buildRequest responder request etag
      match env.NewRequestErr req.url with
      | some e => ⟨[timer], some (.error (.newRequest e))⟩
      | none =>
        (fetchLoop env responder request etag 10 rest).after [timer, .send req]
    | .reply resp =>
      let req := buildRequest responder request etag
      match env.NewRequestErr req.url with
      | some e => ⟨[timer], some (.error (.newRequest e))⟩
      | none =>
        if resp.StatusCode ≠ 200 ∧ resp.StatusCode ≠ 304 then
          let backoffSeconds :=
            if resp.RetryAfter ≠ "" then
              match Atoi resp.RetryAfter.toList with
              | (seconds, none) => if seconds > 0 then seconds else 10
              | (_, some _) => 10
            else 10
          (fetchLoop env responder request etag backoffSeconds rest).after [timer, .send req]
        else
          match resp.Body with
          | none =>
            (fetchLoop env responder request etag 10 rest).after [timer, .send req]
          | some body =>
            match env.ParseResponse body with
            | .error (.responseError _) =>
              (fetchLoop env responder request etag 10 rest).after [timer, .send req]
            | .error (.other _) =>
              (fetchLoop env responder request etag 10 rest).after [timer, .send req]
            | .ok ocspResp =>
              ⟨[timer, .send req],
                some (.ok ⟨ocspResp, body, resp.ETag, parseCacheControl resp.CacheControl⟩)⟩

/-- `Fetch` of `ocsp.go`.  `rnd` is the random number drawn by
`randomResponder`; `none` is the run-time fault of an empty responder list. -/
def Fetch (env : FetchEnv) (rnd : Nat) (responders : List String) (request : List Nat)
    (etag : String) (steps : List Step) : Option FetchRun :=
  match randomResponder rnd responders with
  | none => none
  | some responder => some (fetchLoop env responder request etag 0 steps)

/-! ## `server.go`: `stapled.Response` -/

/-- The fields of an `ocsp.Request`. -/
structure Request where
  HashAlgorithm : Nat
  IssuerNameHash : List Nat
  IssuerKeyHash : List Nat
  SerialNumber : Int
deriving DecidableEq, Repr

/-- The two methods of the cache that `server.go` calls (their bodies are not
part of the sources at hand).  Each returns the values of the Go method: bytes
(`none` is the nil slice) with a flag, resp. bytes with an error. -/
structure cache where
  LookupResponse : Request → Option (List Nat) × Bool
  AddFromRequest : Request → List String → Option (List Nat) × Option GoError

/-- The fields of `stapled` that `Response` uses. -/
structure stapled where
  c : cache
  upstreamResponders : List String

/-- The calls `Response` makes on its collaborators. -/
inductive Call where
  | LookupResponse (r : Request)
  | AddFromRequest (r : Request) (responders : List String)
  | logErr (format : String) (e : GoError)
deriving DecidableEq, Repr

/-- The method `(s *stapled) Response` of `server.go`: the pair it returns and
the calls it made, in order. -/
def stapled.Response (s : stapled) (r : Request) : (Option (List Nat) × Bool) × List Call :=
  match s.c.LookupResponse r with
  | (response, true) => ((response, true), [.LookupResponse r])
  | (_, false) =>
    if s.upstreamResponders.length = 0 then
      ((none, false), [.LookupResponse r])
    else
      match s.c.AddFromRequest r s.upstreamResponders with
      | (_, some err) =>
        ((none, false),
          [.LookupResponse r, .AddFromRequest r s.upstreamResponders,
            .logErr "Failed to add entry to cache from request: %s" err])
      | (response, none) =>
        ((response, true), [.LookupResponse r, .AddFromRequest r s.upstreamResponders])

/-! ## `memCache/issuerCache.go` -/

/-- The fields of `x509.Certificate` that the code reads. -/
structure Certificate where
  SerialNumber : Int
  OCSPServer : List String
  IssuingCertificateURL : List String
  RawSubject : List Nat
  SubjectKeyId : List Nat
deriving DecidableEq, Repr

/-- The map `hashed` of `issuerCache`, from digest to certificate; a key that is
absent maps to `none` (Go yields the nil pointer). -/
structure issuerCache where
  hashed : List Nat → Option Certificate

/-- `newIssuerCache`: the empty map. -/
def newIssuerCache : issuerCache := ⟨fun _ => none⟩

/-- `(ic *issuerCache) get`; `Sum256` is `sha256.Sum256`. -/
def issuerCache.get (Sum256 : List Nat → List Nat) (ic : issuerCache)
    (issuerSubject akid : List Nat) : Option Certificate :=
  let hashed := Sum256 (issuerSubject ++ akid)
  ic.hashed hashed

/-- `(ic *issuerCache) add`: the cache afterwards and the returned error. -/
def issuerCache.add (Sum256 : List Nat → List Nat) (ic : issuerCache)
    (issuer : Certificate) : issuerCache × Option GoError :=
  let hashed := Sum256 (issuer.RawSubject ++ issuer.SubjectKeyId)
  (⟨fun k => if k = hashed then some issuer else ic.hashed k⟩, none)

/-! ## `config.go`: `CertDefToEntryDef` -/

/-- `CertDefinition` of `config.go`. -/
structure CertDefinition where
  Certificate : String
  Name : String
  ResponseName : String
  Issuer : String
  Serial : String
  Responders : List String
  Proxy : String
  OverrideGlobalUpstream : Bool
  OverrideGlobalProxy : Bool
deriving DecidableEq, Repr

/-- The fields of `EntryDefinition` that `CertDefToEntryDef` sets (the logger
and the clock are handles and are left out).  `Proxy` holds the parsed proxy
URL handed to `http.ProxyURL`. -/
structure EntryDefinition where
  Name : String
  Timeout : Int
  Backoff : Int
  Serial : Int
  CacheFolder : String
  Issuer : Option Certificate
  Responders : List String
  Proxy : Option String
deriving DecidableEq, Repr

/-- Outcome of `http.Get(issuerURL)` followed by `ioutil.ReadAll(resp.Body)`. -/
inductive GetResult where
  | getFailed (e : String)
  | readFailed (e : String)
  | body (b : List Nat)
deriving DecidableEq, Repr

/-- The collaborators of `CertDefToEntryDef`: `path.Base`, `ReadCertificate`,
`http.Get` with `ioutil.ReadAll`, `ParseCertificate` (both of its results: the
pointer and the error) and `url.Parse`. -/
structure World where
  Base : String → String
  ReadCertificate : String → Except String Certificate
  Get : String → GetResult
  ParseCertificate : List Nat → Option Certificate × Option String
  urlParse : String → Except String String

/-- The loop over `cert.IssuingCertificateURL` in `CertDefToEntryDef` (lines
308-326); the accumulator is `ed.Issuer`.  There is no `break`: the result of
`ParseCertificate` is assigned for every URL that could be fetched and read. -/
def issuerFromAIA (w : World) : List String → Option Certificate → Option Certificate
  | [], issuer => issuer
  | issuerURL :: rest, issuer =>
    match w.Get issuerURL with
    | .getFailed _ => issuerFromAIA w rest issuer
    | .readFailed _ => issuerFromAIA w rest issuer
    | .body b => issuerFromAIA w rest (w.ParseCertificate b).1

/-- Lines 268-298 of `CertDefToEntryDef`: the initial entry definition, the
check of the required fields, and the serial, decoded from `def.Serial` or read
from the certificate.  Returns `ed` and the local variable `cert`. -/
def entrySerial (w : World) (timeout backoff : Int) (cacheFolder : String)
    (d : CertDefinition) : Except GoError (EntryDefinition × Option Certificate) :=
  let ed : EntryDefinition :=
    { Name := w.Base d.Certificate, Timeout := timeout, Backoff := backoff, Serial := 0,
      CacheFolder := cacheFolder, Issuer := none, Responders := [], Proxy := none }
  if d.Certificate = "" ∧ (d.Serial = "" ∨ d.Name = "") then
    .error ⟨"either 'certificate' or 'name' and 'serial' are required", []⟩
  else if d.Serial ≠ "" then
    match hexDecode d.Serial.toList with
    | none => .error ⟨"failed to decode serial '%s': %s", [.str d.Serial]⟩
    | some serialBytes =>
      .ok ({ ed with Name := d.Name, Serial := SetBytes serialBytes }, none)
  else
    match w.ReadCertificate d.Certificate with
    | .error e =>
      .error ⟨"failed to parse certificate '%s': %s", [.str d.Certificate, .str e]⟩
    | .ok cert =>
      .ok ({ ed with Serial := cert.SerialNumber, Responders := cert.OCSPServer }, some cert)

/-- Lines 299-332 of `CertDefToEntryDef`: the issuer, from the configured file
or from the AIA URLs of the certificate. -/
def entryIssuer (w : World) (d : CertDefinition) (ed : EntryDefinition)
    (cert : Option Certificate) : Except GoError EntryDefinition :=
  let step : Except GoError EntryDefinition :=
    if d.Issuer ≠ "" then
      match w.ReadCertificate d.Issuer with
      | .error e => .error ⟨"failed to parse issuer '%s': %s", [.str d.Issuer, .str e]⟩
      | .ok issuer => .ok { ed with Issuer := some issuer }
    else
      match cert with
      | some cert =>
        if cert.IssuingCertificateURL.length = 0 then
          .error ⟨"issuer can only be ommited if the certificate contains AIA information about its issuer", []⟩
        else
          .ok { ed with Issuer := issuerFromAIA w cert.IssuingCertificateURL ed.Issuer }
      | none =>
        .error ⟨"issuer can only be ommited if the certificate contains AIA information about its issuer", []⟩
  match step with
  | .error e => .error e
  | .ok ed =>
    if ed.Issuer = none then .error ⟨"unable to retrieve issuer", []⟩ else .ok ed

/-- Lines 334-350 of `CertDefToEntryDef`: the responders and the proxy.  The
code reads `def.OverrideUpstream`, which is the field `OverrideGlobalUpstream`
of `CertDefinition`. -/
def entryResponders (w : World) (upstreamStapleds : List String) (proxy : String)
    (d : CertDefinition) (ed : EntryDefinition) : Except GoError EntryDefinition :=
  let responders := if d.Responders.length > 0 then d.Responders else ed.Responders
  let responders :=
    if upstreamStapleds.length > 0 ∧ ¬ d.OverrideGlobalUpstream then upstreamStapleds
    else responders
  if responders.length = 0 then
    .error ⟨"no responders provided", []⟩
  else if proxy ≠ "" then
    match w.urlParse proxy with
    | .error e => .error ⟨"failed to parse proxy URL: %s", [.str e]⟩
    | .ok proxyURL => .ok { ed with Responders := responders, Proxy := some proxyURL }
  else
    .ok { ed with Responders := responders }

/-- `CertDefToEntryDef` of `config.go`: its three parts in sequence, the first
error ending the call. -/
def CertDefToEntryDef (w : World) (timeout backoff : Int) (cacheFolder : String)
    (upstreamStapleds : List String) (proxy : String) (d : CertDefinition) :
    Except GoError EntryDefinition :=
  match entrySerial w timeout backoff cacheFolder d with
  | .error e => .error e
  | .ok (ed, cert) =>
    match entryIssuer w d ed cert with
    | .error e => .error e
    | .ok ed => entryResponders w upstreamStapleds proxy d ed

/-! ## Reference notions used to state the theorems -/

/-- Value of a run of decimal digits read after the value `n`. -/
def natValueFrom (n : Nat) (ds : List Char) : Nat :=
  ds.foldl (fun a c => a * 10 + digitVal c) n

/-- The text without its leading sign, if it has one. -/
def unsignedPart : List Char → List Char
  | [] => []
  | c :: cs => if c = '+' ∨ c = '-' then cs else c :: cs

/-- The text starts with a minus sign. -/
def isNegative : List Char → Bool
  | [] => false
  | c :: _ => decide (c = '-')

/-- The text is a syntactically valid decimal integer: an optional sign followed
by one or more decimal digits. -/
def isDecimalInteger (t : List Char) : Bool :=
  !(unsignedPart t).isEmpty && (unsignedPart t).all isDigit

/-- The integer a syntactically valid decimal integer denotes. -/
def decimalValue (t : List Char) : Int :=
  if isNegative t then -(natValueFrom 0 (unsignedPart t) : Int)
  else (natValueFrom 0 (unsignedPart t) : Int)

/-- The digits at the start of the text (after an optional sign) denote a number
above the largest `uint64`. -/
def digitsOverflow (t : List Char) : Bool :=
  decide (natValueFrom 0 ((unsignedPart t).takeWhile isDigit) > maxUint64)

/-- The int64 bound on the side of the sign of the text. -/
def clampInt64 (t : List Char) : Int :=
  if isNegative t then -9223372036854775808 else 9223372036854775807

/-- What `strconv.Atoi` returns, told from the text: the int64 bound with a range
error when the leading digits overflow `uint64`; else 0 with a syntax error when
the text is no decimal integer; else the value, or the int64 bound with a range
error when the value is outside int64. -/
def atoiRef (t : List Char) : Int × Option NumError :=
  if digitsOverflow t then (clampInt64 t, some .outOfRange)
  else if !isDecimalInteger t then (0, some .invalid)
  else if isInt64 (decimalValue t) then (decimalValue t, none)
  else (clampInt64 t, some .outOfRange)

/-- The reference of `parseCacheControl`: delete every space from the header,
split on `,`, take the last piece that starts with `max-age=`; the result is the
text after that prefix (`none` when no piece has the prefix). -/
def lastMaxAgeText (h : String) : Option (List Char) :=
  ((splitComma (removeSpaces h.toList)).reverse.find?
    (fun p => HasPrefix p "max-age=".toList)).map (fun p => p.drop 8)

/-- A hexadecimal digit, in either case. -/
def isHexDigit (c : Char) : Bool :=
  (decide ('0' ≤ c) && decide (c ≤ '9')) || (decide ('a' ≤ c) && decide (c ≤ 'f')) ||
    (decide ('A' ≤ c) && decide (c ≤ 'F'))

/-- Valid hexadecimal text: an even number of characters, all hexadecimal digits. -/
def isValidHex (s : List Char) : Bool :=
  decide (s.length % 2 = 0) && s.all isHexDigit

/-- The non-negative integer with the given big-endian byte representation. -/
def bigEndianValue : List Nat → Int
  | [] => 0
  | b :: bs => (b : Int) * 256 ^ bs.length + bigEndianValue bs

/-- The sixteen hexadecimal digits, in the order of their values. -/
def hexDigits : List Char := "0123456789abcdef".toList

/-- Value of a hexadecimal digit: its place among the sixteen digits, the case
of a letter ignored. -/
def hexDigitValue (c : Char) : Nat := hexDigits.indexOf c.toLower

/-- The number a text denotes in base 16, read from the left. -/
def hexValue (s : List Char) : Nat :=
  s.foldl (fun acc c => acc * 16 + hexDigitValue c) 0


/-- A failed attempt of the retry loop of `Fetch`: a network error, a status
other than 200 and 304, an unreadable body, or a body that does not parse as an
OCSP response. -/
def isFailedAttempt (env : FetchEnv) : Step → Bool
  | .ctxDone => false
  | .doErr => true
  | .reply r =>
    if r.StatusCode ≠ 200 ∧ r.StatusCode ≠ 304 then true
    else
      match r.Body with
      | none => true
      | some body =>
        match env.ParseResponse body with
        | .error _ => true
        | .ok _ => false

/-- The delay, in nanoseconds, before the attempt that follows a failed attempt:
for a reply with a status other than 200 and 304 whose `Retry-After` value is a
decimal integer `n` with `0 < n` in the int64 range, `n * 10^9` as an int64; in
every other case 10 seconds. -/
def retryDelay : Step → Int
  | .reply r =>
    if r.StatusCode ≠ 200 ∧ r.StatusCode ≠ 304 ∧ isDecimalInteger r.RetryAfter.toList = true ∧
        0 < decimalValue r.RetryAfter.toList ∧ isInt64 (decimalValue r.RetryAfter.toList) then
      wrapInt64 (decimalValue r.RetryAfter.toList * 1000000000)
    else 10000000000
  | _ => 10000000000

/-- The durations of the timers of a run, in order. -/
def timerDelays (evs : List Event) : List Int :=
  evs.filterMap fun e =>
    match e with
    | .timer d => some d
    | .send _ => none

/-- The percent-escaping of base64 text: `+`, `/` and `=` become `%2B`, `%2F`
and `%3D`, the letters and digits stay. -/
def escapeBase64 (s : List Char) : List Char :=
  s.flatMap fun c =>
    if c = '+' then ['%', '2', 'B']
    else if c = '/' then ['%', '2', 'F']
    else if c = '=' then ['%', '3', 'D']
    else [c]

/-- A `FetchEnv` in which every body parses to a response that expired an hour
before the instant 7200 s. -/
def staleEnv : FetchEnv where
  NewRequestErr := fun _ => none
  ParseResponse := fun _ => .ok ⟨0, 3600000000000, 258⟩
  ctxErr := "context deadline exceeded"

/-- A `FetchEnv` in which no body parses. -/
def junkEnv : FetchEnv where
  NewRequestErr := fun _ => none
  ParseResponse := fun _ => .error (.other "asn1: syntax error")
  ctxErr := "context deadline exceeded"

/-! ## A small concrete world, for the closed statements -/

/-- An issuer certificate. -/
def issuerA : Certificate := ⟨1, [], [], [65], [1]⟩

/-- Another issuer certificate. -/
def issuerB : Certificate := ⟨2, [], [], [66], [2]⟩

/-- A certificate naming two AIA URLs, both of which serve an issuer. -/
def leafTwoIssuers : Certificate :=
  ⟨4660, ["http://ocsp.test"], ["http://aia.test/a", "http://aia.test/b"], [67], [3]⟩

/-- A certificate naming two AIA URLs, the second of which serves a body that is
no certificate. -/
def leafIssuerThenJunk : Certificate :=
  ⟨4661, ["http://ocsp.test"], ["http://aia.test/a", "http://aia.test/junk"], [68], [4]⟩

/-- A world with two certificate files, one issuer file and three AIA URLs. -/
def sampleWorld : World where
  Base := fun p => p
  ReadCertificate := fun p =>
    if p = "leaf.pem" then .ok leafTwoIssuers
    else if p = "leaf2.pem" then .ok leafIssuerThenJunk
    else if p = "issuer.pem" then .ok issuerA
    else .error "no such file"
  Get := fun u =>
    if u = "http://aia.test/a" then .body [1]
    else if u = "http://aia.test/b" then .body [2]
    else if u = "http://aia.test/junk" then .body [3]
    else .getFailed "no such host"
  ParseCertificate := fun b =>
    if b = [1] then (some issuerA, none)
    else if b = [2] then (some issuerB, none)
    else (none, some "asn1: syntax error")
  urlParse := fun u => .ok u

/-! ## Theorems -/

theorem wrapInt64_of_isInt64 (x : Int) (h : isInt64 x) : wrapInt64 x = x := by
  unfold isInt64 at h
  unfold wrapInt64
  omega

theorem wrapInt64_isInt64 (x : Int) : isInt64 (wrapInt64 x) := by
  unfold isInt64 wrapInt64
  omega

theorem wrapInt64_modEq (x : Int) : wrapInt64 x ≡ x [ZMOD 18446744073709551616] := by
  unfold wrapInt64
  rw [Int.ModEq]
  omega

theorem configuredDuration_empty (PD : String → Except String Int) :
    configuredDuration PD "" = some 10000000000 := by
  simp [configuredDuration, mulDuration, Second, wrapInt64]

theorem configuredDuration_ok (PD : String → Except String Int) (s : String) (d : Int)
    (hs : s ≠ "") (hd : PD s = .ok d) :
    configuredDuration PD s = some (wrapInt64 (d * 1000000000)) := by
  simp [configuredDuration, hs, hd, mulDuration, Second, mul_comm]

theorem int64_multiple_eq_zero (d m : Int) (h : isInt64 d)
    (hm : d = 18446744073709551616 * m) : d = 0 := by
  unfold isInt64 at h
  omega

theorem wrapInt64_scaled_eq_self_iff (d : Int) (h : isInt64 d) :
    wrapInt64 (d * 1000000000) = d ↔ d = 0 := by
  constructor
  · intro h1
    have h0 := (wrapInt64_modEq (d * 1000000000)).dvd
    rw [h1] at h0
    have h2 : (18446744073709551616 : Int) ∣ 999999999 * d := by
      have e : d * 1000000000 - d = 999999999 * d := by ring
      rwa [e] at h0
    have hc : IsCoprime (18446744073709551616 : Int) 999999999 := by
      rw [Int.isCoprime_iff_gcd_eq_one]; rfl
    obtain ⟨m, hm⟩ := hc.dvd_of_dvd_mul_left h2
    exact int64_multiple_eq_zero d m h hm
  · intro h1
    subst h1
    norm_num [wrapInt64]

/-! ### `VerifyResponse` -/

/-- C1: `VerifyResponse now serial resp` returns the nil error exactly when
`ThisUpdate` is not after `now`, `NextUpdate` is not before `now` and the serial
numbers are equal; otherwise it returns the "ThisUpdate is in the future" error
when `ThisUpdate` is after `now`, else the "stale ... NextUpdate is in the past"
error when `NextUpdate` is before `now`, else the "Serial numbers don't match"
error.  The three errors are pairwise distinct, and a response with
`ThisUpdate ≤ now` and `NextUpdate = now - 1h` gets the staleness error whatever
its serial. -/
theorem VerifyResponse_spec (now : Time) (serial : Int) (resp : Response) :
    (VerifyResponse now serial resp = none ↔
      ¬ resp.ThisUpdate > now ∧ ¬ resp.NextUpdate < now ∧ resp.SerialNumber = serial) ∧
    (resp.ThisUpdate > now →
      VerifyResponse now serial resp =
        some ⟨"malformed OCSP response: ThisUpdate is in the future (%s after %s)",
          [.time resp.ThisUpdate, .time now]⟩) ∧
    (¬ resp.ThisUpdate > now → resp.NextUpdate < now →
      VerifyResponse now serial resp =
        some ⟨"stale OCSP response: NextUpdate is in the past (%s before %s)",
          [.time resp.NextUpdate, .time now]⟩) ∧
    (¬ resp.ThisUpdate > now → ¬ resp.NextUpdate < now → resp.SerialNumber ≠ serial →
      VerifyResponse now serial resp =
        some ⟨"malformed OCSP response: Serial numbers don't match (wanted %x, got %x)",
          [.bytes (bigBytes serial), .bytes (bigBytes resp.SerialNumber)]⟩) ∧
    ("malformed OCSP response: ThisUpdate is in the future (%s after %s)" ≠
        "stale OCSP response: NextUpdate is in the past (%s before %s)" ∧
      "malformed OCSP response: ThisUpdate is in the future (%s after %s)" ≠
        "malformed OCSP response: Serial numbers don't match (wanted %x, got %x)" ∧
      "stale OCSP response: NextUpdate is in the past (%s before %s)" ≠
        "malformed OCSP response: Serial numbers don't match (wanted %x, got %x)") ∧
    (resp.ThisUpdate ≤ now → resp.NextUpdate = now - 3600 * Second →
      VerifyResponse now serial resp =
        some ⟨"stale OCSP response: NextUpdate is in the past (%s before %s)",
          [.time resp.NextUpdate, .time now]⟩) := by
  refine ⟨?_, ?_, ?_, ?_, ?_, ?_⟩
  · unfold VerifyResponse
    constructor
    · intro h
      split_ifs at h with h1 h2 h3
      exact ⟨h1, h2, (not_not.mp h3).symm⟩
    · rintro ⟨h1, h2, h3⟩
      simp [h1, h2, h3]
  · intro h1
    simp [VerifyResponse, h1]
  · intro h1 h2
    simp [VerifyResponse, h1, h2]
  · intro h1 h2 h3
    have h4 : serial ≠ resp.SerialNumber := fun e => h3 e.symm
    simp [VerifyResponse, h1, h2, h4]
  · decide
  · intro h1 h2
    have h3 : ¬ resp.ThisUpdate > now := not_lt.mpr h1
    have h4 : resp.NextUpdate < now := by
      rw [h2]; unfold Second
      exact Int.sub_lt_self now (by norm_num)
    simp [VerifyResponse, h3, h4]

/-- Witness for C1: a response inside its validity window and with the
requested serial is accepted, one that expired an hour ago is reported stale. -/
theorem VerifyResponse_spec_witness :
    VerifyResponse 7200000000000 258 ⟨0, 7200000000000, 258⟩ = none ∧
    VerifyResponse 7200000000000 258 ⟨0, 3600000000000, 77⟩ =
      some ⟨"stale OCSP response: NextUpdate is in the past (%s before %s)",
        [.time 3600000000000, .time 7200000000000]⟩ :=
  ⟨(VerifyResponse_spec 7200000000000 258 ⟨0, 7200000000000, 258⟩).1.2
      ⟨by decide, by decide, rfl⟩,
    (VerifyResponse_spec 7200000000000 258 ⟨0, 3600000000000, 77⟩).2.2.2.2.2
      (by decide) (by decide)⟩

/-! ### `main`: timeout and base backoff -/

/-- C10: in `main` the base backoff and the fetch timeout are 10 seconds when
their configuration string is empty, and for a non-empty string that parses to
`d` nanoseconds the value used is `d * 10^9` wrapped to int64: the
representative of `d * 10^9` modulo `2^64` in `[-2^63, 2^63)`, which equals `d`
only for `d = 0`.  A parse result of 1ms yields `10^15` ns and one of 10s yields
`-8446744073709551616` ns. -/
theorem main_durations_scaled (PD : String → Except String Int) (cfg : FetcherConfig) :
    (cfg.BaseBackoff = "" → cfg.Timeout = "" →
      mainDurations PD cfg = some (10000000000, 10000000000)) ∧
    (∀ db dt : Int, (cfg.BaseBackoff ≠ "" → PD cfg.BaseBackoff = .ok db) →
      (cfg.Timeout ≠ "" → PD cfg.Timeout = .ok dt) →
      mainDurations PD cfg =
        some (if cfg.BaseBackoff = "" then 10000000000 else wrapInt64 (db * 1000000000),
          if cfg.Timeout = "" then 10000000000 else wrapInt64 (dt * 1000000000))) ∧
    (∀ d : Int, isInt64 d →
      isInt64 (wrapInt64 (d * 1000000000)) ∧
      wrapInt64 (d * 1000000000) ≡ d * 1000000000 [ZMOD 18446744073709551616] ∧
      (wrapInt64 (d * 1000000000) = d ↔ d = 0)) ∧
    wrapInt64 (1000000 * 1000000000) = 1000000000000000 ∧
    wrapInt64 (10000000000 * 1000000000) = -8446744073709551616 ∧
    -8446744073709551616 < (0 : Int) := by
  refine ⟨?_, ?_, ?_, ?_, ?_, ?_⟩
  · intro h1 h2
    simp [mainDurations, h1, h2, configuredDuration_empty]
  · intro db dt h1 h2
    unfold mainDurations
    by_cases hb : cfg.BaseBackoff = "" <;> by_cases ht : cfg.Timeout = ""
    · simp [hb, ht, configuredDuration_empty]
    · simp [hb, ht, configuredDuration_empty, configuredDuration_ok PD _ dt ht (h2 ht)]
    · simp [hb, ht, configuredDuration_empty, configuredDuration_ok PD _ db hb (h1 hb)]
    · simp [hb, ht, configuredDuration_ok PD _ dt ht (h2 ht),
        configuredDuration_ok PD _ db hb (h1 hb)]
  · intro d hd
    exact ⟨wrapInt64_isInt64 _, wrapInt64_modEq _, wrapInt64_scaled_eq_self_iff d hd⟩
  · norm_num [wrapInt64]
  · norm_num [wrapInt64]
  · norm_num

/-- Witness for C10: with a parser that reads "1ms" as `10^6` ns and "10s" as
`10^10` ns, a configuration with base backoff "1ms" and timeout "10s" gives
`10^15` ns and `-8446744073709551616` ns. -/
theorem main_durations_scaled_witness :
    mainDurations
        (fun s => if s = "1ms" then .ok 1000000 else if s = "10s" then .ok 10000000000
          else .error "time: invalid duration")
        ⟨"10s", "1ms", "", []⟩ =
      some (if ("1ms" : String) = "" then 10000000000 else wrapInt64 (1000000 * 1000000000),
        if ("10s" : String) = "" then 10000000000 else wrapInt64 (10000000000 * 1000000000)) :=
  (main_durations_scaled
      (fun s => if s = "1ms" then .ok 1000000 else if s = "10s" then .ok 10000000000
        else .error "time: invalid duration")
      ⟨"10s", "1ms", "", []⟩).2.1 1000000 10000000000 (fun _ => by decide) (fun _ => by decide)

/-! ### `stapled.Response` -/

/-- C4: `Response` returns the cached bytes with `ok = true` and makes no call of
`AddFromRequest` when the lookup reports present; on a miss with no upstream
responders it returns `(nil, false)`, again without calling `AddFromRequest`; on
a miss where `AddFromRequest` fails it returns `(nil, false)`; on a miss where it
succeeds it returns that call's bytes with `ok = true`.  So `ok = false` implies
nil bytes. -/
theorem Response_not_found_only (s : stapled) (r : Request) :
    (∀ bytes, s.c.LookupResponse r = (bytes, true) →
      s.Response r = ((bytes, true), [.LookupResponse r])) ∧
    (∀ bytes, s.c.LookupResponse r = (bytes, false) → s.upstreamResponders = [] →
      s.Response r = ((none, false), [.LookupResponse r])) ∧
    (∀ bytes added err, s.c.LookupResponse r = (bytes, false) → s.upstreamResponders ≠ [] →
      s.c.AddFromRequest r s.upstreamResponders = (added, some err) →
      (s.Response r).1 = (none, false)) ∧
    (∀ bytes added, s.c.LookupResponse r = (bytes, false) → s.upstreamResponders ≠ [] →
      s.c.AddFromRequest r s.upstreamResponders = (added, none) →
      (s.Response r).1 = (added, true)) ∧
    ((s.Response r).1.2 = false → (s.Response r).1.1 = none) := by
  refine ⟨?_, ?_, ?_, ?_, ?_⟩
  · intro bytes h
    simp [stapled.Response, h]
  · intro bytes h hu
    simp [stapled.Response, h, hu]
  · intro bytes added err h hu ha
    simp [stapled.Response, h, hu, ha]
  · intro bytes added h hu ha
    simp [stapled.Response, h, hu, ha]
  · unfold stapled.Response
    split
    · simp
    · split
      · simp
      · split <;> simp

/-- Witness for C4: a cache that knows nothing and whose on-demand fill fails
makes `Response` answer `(nil, false)`. -/
theorem Response_not_found_only_witness :
    (stapled.Response
      ⟨⟨fun _ => (none, false), fun _ _ => (some [1], some ⟨"no issuer", []⟩)⟩, ["http://up"]⟩
      ⟨0, [], [], 258⟩).1 = (none, false) :=
  (Response_not_found_only
      ⟨⟨fun _ => (none, false), fun _ _ => (some [1], some ⟨"no issuer", []⟩)⟩, ["http://up"]⟩
      ⟨0, [], [], 258⟩).2.2.1 none (some [1]) ⟨"no issuer", []⟩ rfl (by decide) rfl

/-! ### `issuerCache` -/

/-- C5: `issuerCache` behaves as a map keyed by the SHA-256 digest of the subject
name followed by the subject key identifier: after `add c` the lookup
`get c.RawSubject c.SubjectKeyId` returns `c` (so a later `add` under the same
key replaces the earlier one), a lookup whose digest differs returns what it
returned before, `add` returns the nil error, and a new cache returns nil for
every input. -/
theorem issuerCache_map (Sum256 : List Nat → List Nat) (ic : issuerCache) (c : Certificate) :
    (ic.add Sum256 c).1.get Sum256 c.RawSubject c.SubjectKeyId = some c ∧
    (∀ c2 : Certificate,
      Sum256 (c2.RawSubject ++ c2.SubjectKeyId) = Sum256 (c.RawSubject ++ c.SubjectKeyId) →
      ((ic.add Sum256 c).1.add Sum256 c2).1.get Sum256 c.RawSubject c.SubjectKeyId = some c2) ∧
    (∀ subject akid : List Nat,
      Sum256 (subject ++ akid) ≠ Sum256 (c.RawSubject ++ c.SubjectKeyId) →
      (ic.add Sum256 c).1.get Sum256 subject akid = ic.get Sum256 subject akid) ∧
    (ic.add Sum256 c).2 = none ∧
    (∀ subject akid : List Nat, newIssuerCache.get Sum256 subject akid = none) := by
  refine ⟨?_, ?_, ?_, ?_, ?_⟩
  · simp [issuerCache.add, issuerCache.get]
  · intro c2 h
    simp [issuerCache.add, issuerCache.get, h]
  · intro subject akid h
    simp [issuerCache.add, issuerCache.get, h]
  · rfl
  · intro subject akid
    rfl

/-- Witness for C5, with the identity in the place of the digest: adding an
issuer with subject `[1]` and key identifier `[2]` leaves the lookup of subject
`[3]`, key identifier `[4]` as it was. -/
theorem issuerCache_map_witness :
    ((newIssuerCache.add id ⟨1, [], [], [1], [2]⟩).1.get id [3] [4]) =
      newIssuerCache.get id [3] [4] :=
  (issuerCache_map id newIssuerCache ⟨1, [], [], [1], [2]⟩).2.2.1 [3] [4] (by decide)

/-! ### `strconv.Atoi` against its reference -/

theorem isDigit_bounds (c : Char) (h : isDigit c = true) : 48 ≤ c.toNat ∧ c.toNat ≤ 57 := by
  unfold isDigit at h
  simp only [Bool.and_eq_true, decide_eq_true_eq] at h
  obtain ⟨h1, h2⟩ := h
  rw [Char.le_def] at h1 h2
  exact ⟨h1, h2⟩

theorem digitVal_le (c : Char) (h : isDigit c = true) : digitVal c ≤ 9 := by
  have := isDigit_bounds c h
  unfold digitVal
  omega

theorem natValueFrom_cons (n : Nat) (c : Char) (cs : List Char) :
    natValueFrom n (c :: cs) = natValueFrom (n * 10 + digitVal c) cs := rfl

theorem natValueFrom_ge (ds : List Char) : ∀ n : Nat, n ≤ natValueFrom n ds := by
  induction ds with
  | nil => intro n; exact le_refl n
  | cons c cs ih =>
    intro n
    rw [natValueFrom_cons]
    have := ih (n * 10 + digitVal c)
    omega

theorem parseUintLoop_eq (cs : List Char) : ∀ n : Nat, n ≤ maxUint64 →
    parseUintLoop cs n =
      if natValueFrom n (cs.takeWhile isDigit) > maxUint64 then (maxUint64, some .outOfRange)
      else if cs.all isDigit then (natValueFrom n cs, none)
      else (0, some .invalid) := by
  induction cs with
  | nil =>
    intro n hn
    have h : ¬ n > maxUint64 := not_lt.mpr hn
    simp [parseUintLoop, natValueFrom, h]
  | cons c cs ih =>
    intro n hn
    by_cases hd : isDigit c = true
    · have hdv := digitVal_le c hd
      have hmono := natValueFrom_ge (cs.takeWhile isDigit) (n * 10 + digitVal c)
      simp only [parseUintLoop, hd, if_true, List.takeWhile_cons, List.all_cons, Bool.true_and,
        natValueFrom_cons]
      unfold maxUint64 at *
      by_cases hc : n ≥ 18446744073709551615 / 10 + 1
      · have h1 : natValueFrom (n * 10 + digitVal c) (List.takeWhile isDigit cs) >
            18446744073709551615 := by omega
        simp only [hc, if_true, h1]
      · simp only [hc, if_false]
        by_cases ho : n * 10 + digitVal c ≥ 18446744073709551616
        · have h1 : natValueFrom (n * 10 + digitVal c) (List.takeWhile isDigit cs) >
              18446744073709551615 := by omega
          have h2 : (n * 10 + digitVal c) % 18446744073709551616 < n * 10 ∨
              (n * 10 + digitVal c) % 18446744073709551616 > 18446744073709551615 := by
            left; omega
          simp only [h2, if_true, h1]
        · have h3 : (n * 10 + digitVal c) % 18446744073709551616 = n * 10 + digitVal c := by
            omega
          have h2 : ¬ (n * 10 + digitVal c < n * 10 ∨
              n * 10 + digitVal c > 18446744073709551615) := by
            omega
          simp only [h3, h2, if_false]
          exact ih (n * 10 + digitVal c) (by omega)
    · have hd2 : isDigit c = false := by simpa using hd
      have h : ¬ n > maxUint64 := not_lt.mpr hn
      simp [parseUintLoop, hd2, natValueFrom, h]

theorem ParseUint_eq (b : List Char) :
    ParseUint b =
      if natValueFrom 0 (b.takeWhile isDigit) > maxUint64 then (maxUint64, some .outOfRange)
      else if !b.isEmpty && b.all isDigit then (natValueFrom 0 b, none)
      else (0, some .invalid) := by
  unfold ParseUint
  cases b with
  | nil => simp [natValueFrom, maxUint64]
  | cons c cs =>
    rw [if_neg (List.cons_ne_nil c cs), parseUintLoop_eq (c :: cs) 0 (by unfold maxUint64; omega)]
    simp

theorem ParseInt_eq (t : List Char) : ParseInt t = atoiRef t := by
  cases t with
  | nil => simp [ParseInt, atoiRef, digitsOverflow, isDecimalInteger, unsignedPart, natValueFrom, maxUint64]
  | cons c cs =>
    have hbody : (if c = '+' ∨ c = '-' then cs else c :: cs) = unsignedPart (c :: cs) := rfl
    simp only [ParseInt, hbody, ParseUint_eq]
    unfold atoiRef digitsOverflow isDecimalInteger decimalValue clampInt64 isInt64
    simp only [isNegative]
    generalize unsignedPart (c :: cs) = body
    by_cases ho : natValueFrom 0 (body.takeWhile isDigit) > maxUint64
    · simp only [ho, if_true, decide_True]
      unfold maxUint64
      by_cases hneg : c = '-'
      · simp [hneg]
      · simp [hneg]
    · simp only [ho, if_false, decide_False]
      by_cases hv : (!body.isEmpty && body.all isDigit) = true
      · simp only [hv, if_true, Bool.not_true]
        by_cases hneg : c = '-'
        · simp only [hneg, decide_True, if_true, Bool.not_true, Bool.false_eq_true, false_and,
            true_and, if_false]
          by_cases h1 : natValueFrom 0 body > 9223372036854775808
          · have h2 : ¬ (-9223372036854775808 ≤ -(natValueFrom 0 body : Int) ∧
                -(natValueFrom 0 body : Int) < 9223372036854775808) := by omega
            rw [if_pos h1, if_neg h2]
          · have h2 : (-9223372036854775808 ≤ -(natValueFrom 0 body : Int) ∧
                -(natValueFrom 0 body : Int) < 9223372036854775808) := by omega
            rw [if_neg h1, if_pos h2]
        · simp only [hneg, decide_False, if_true, Bool.not_false, Bool.false_eq_true, false_and,
            true_and, if_false]
          by_cases h1 : natValueFrom 0 body ≥ 9223372036854775808
          · have h2 : ¬ (-9223372036854775808 ≤ (natValueFrom 0 body : Int) ∧
                (natValueFrom 0 body : Int) < 9223372036854775808) := by omega
            rw [if_pos h1, if_neg h2]
          · have h2 : (-9223372036854775808 ≤ (natValueFrom 0 body : Int) ∧
                (natValueFrom 0 body : Int) < 9223372036854775808) := by omega
            rw [if_neg h1, if_pos h2]
      · have hv2 : (!body.isEmpty && body.all isDigit) = false := by simpa using hv
        simp [hv2]

theorem length_le_byteLen (s : List Char) : s.length ≤ byteLen s := by
  induction s with
  | nil => exact le_refl 0
  | cons c cs ih =>
    have := Char.utf8Size_pos c
    simp only [List.length_cons, byteLen]
    omega

theorem atoiFastLoop_eq (ds : List Char) : ∀ n : Nat,
    atoiFastLoop ds (n : Int) =
      if ds.all isDigit then some ((natValueFrom n ds : Nat) : Int) else none := by
  induction ds with
  | nil => intro n; simp [atoiFastLoop, natValueFrom]
  | cons c cs ih =>
    intro n
    by_cases hd : isDigit c = true
    · have e : (n : Int) * 10 + (digitVal c : Int) = ((n * 10 + digitVal c : Nat) : Int) := by
        push_cast; rfl
      simp only [atoiFastLoop, hd, if_true, e, ih, List.all_cons, Bool.true_and,
        natValueFrom_cons]
    · have hd2 : isDigit c = false := by simpa using hd
      simp [atoiFastLoop, hd2]

theorem natValueFrom_lt (ds : List Char) : ∀ n : Nat, ds.all isDigit = true →
    natValueFrom n ds < (n + 1) * 10 ^ ds.length := by
  induction ds with
  | nil => intro n _; simp [natValueFrom]
  | cons c cs ih =>
    intro n h
    simp only [List.all_cons, Bool.and_eq_true] at h
    have hd := digitVal_le c h.1
    have h1 := ih (n * 10 + digitVal c) h.2
    rw [natValueFrom_cons, List.length_cons, pow_succ]
    have h2 : (n * 10 + digitVal c + 1) * 10 ^ cs.length ≤ (n + 1) * 10 * 10 ^ cs.length :=
      Nat.mul_le_mul_right _ (by omega)
    calc natValueFrom (n * 10 + digitVal c) cs
        < (n * 10 + digitVal c + 1) * 10 ^ cs.length := h1
      _ ≤ (n + 1) * 10 * 10 ^ cs.length := h2
      _ = (n + 1) * (10 ^ cs.length * 10) := by ring

theorem natValueFrom_lt_of_short (ds : List Char) (h : ds.all isDigit = true)
    (hl : ds.length ≤ 18) : natValueFrom 0 ds < 1000000000000000000 := by
  have h1 := natValueFrom_lt ds 0 h
  have h2 : 10 ^ ds.length ≤ 10 ^ 18 := Nat.pow_le_pow_right (by norm_num) hl
  have h3 : (10 : Nat) ^ 18 = 1000000000000000000 := by norm_num
  omega

theorem takeWhile_all_isDigit (ds : List Char) : (ds.takeWhile isDigit).all isDigit = true := by
  induction ds with
  | nil => rfl
  | cons c cs ih =>
    by_cases hd : isDigit c = true
    · simp [List.takeWhile_cons, hd, ih]
    · have hd2 : isDigit c = false := by simpa using hd
      simp [List.takeWhile_cons, hd2]

theorem takeWhile_length_le (ds : List Char) : (ds.takeWhile isDigit).length ≤ ds.length := by
  induction ds with
  | nil => exact le_refl 0
  | cons c cs ih =>
    by_cases hd : isDigit c = true
    · simp [List.takeWhile_cons, hd, ih]
    · have hd2 : isDigit c = false := by simpa using hd
      simp [List.takeWhile_cons, hd2]

theorem unsignedPart_cons (c : Char) (cs : List Char) :
    unsignedPart (c :: cs) = if c = '+' ∨ c = '-' then cs else c :: cs := rfl

theorem unsignedPart_length_le (t : List Char) : (unsignedPart t).length ≤ t.length := by
  cases t with
  | nil => exact le_refl 0
  | cons c cs =>
    rw [unsignedPart_cons]
    split_ifs <;> simp

theorem Atoi_eq (t : List Char) : Atoi t = atoiRef t := by
  unfold Atoi
  by_cases hf : 0 < byteLen t ∧ byteLen t < 19
  · rw [if_pos hf]
    cases t with
    | nil => simp [byteLen] at hf
    | cons c cs =>
      have hlen : (unsignedPart (c :: cs)).length ≤ 18 := by
        have h1 := unsignedPart_length_le (c :: cs)
        have h2 := length_le_byteLen (c :: cs)
        omega
      have hrun : natValueFrom 0 ((unsignedPart (c :: cs)).takeWhile isDigit) <
          1000000000000000000 :=
        natValueFrom_lt_of_short _ (takeWhile_all_isDigit _)
          (le_trans (takeWhile_length_le _) hlen)
      have hbody : (if c = '-' ∨ c = '+' then cs else c :: cs) = unsignedPart (c :: cs) := by
        rw [unsignedPart_cons]
        by_cases h1 : c = '-' <;> by_cases h2 : c = '+' <;> simp [h1, h2]
      have hzero : (0 : Int) = ((0 : Nat) : Int) := rfl
      simp only [hbody]
      rw [hzero, atoiFastLoop_eq]
      unfold atoiRef digitsOverflow isDecimalInteger decimalValue clampInt64 isInt64 maxUint64
      simp only [isNegative]
      have ho : ¬ natValueFrom 0 ((unsignedPart (c :: cs)).takeWhile isDigit) >
          18446744073709551615 := by omega
      simp only [ho, decide_False, Bool.false_eq_true, if_false]
      by_cases hall : (unsignedPart (c :: cs)).all isDigit = true
      · have hv := natValueFrom_lt_of_short _ hall hlen
        by_cases he : unsignedPart (c :: cs) = []
        · have hsign : c = '-' ∨ c = '+' := by
            by_contra hns
            have hns2 : ¬ (c = '+' ∨ c = '-') := fun h => hns h.symm
            rw [unsignedPart_cons, if_neg hns2] at he
            exact List.cons_ne_nil _ _ he
          simp [he, hsign]
        · have hne : (unsignedPart (c :: cs)).isEmpty = false := by
            cases h : unsignedPart (c :: cs) with
            | nil => exact absurd h he
            | cons _ _ => rfl
          by_cases hneg : c = '-'
          · subst hneg
            have h2 : (-9223372036854775808 ≤
                -(natValueFrom 0 (unsignedPart ('-' :: cs)) : Int) ∧
                -(natValueFrom 0 (unsignedPart ('-' :: cs)) : Int) < 9223372036854775808) := by
              omega
            simp only [hall, hne, he, and_false, if_false, if_true, decide_True,
              Bool.not_false, Bool.and_self, Bool.not_true, Bool.false_eq_true]
            rw [if_pos h2]
          · have h2 : (-9223372036854775808 ≤ (natValueFrom 0 (unsignedPart (c :: cs)) : Int) ∧
                (natValueFrom 0 (unsignedPart (c :: cs)) : Int) < 9223372036854775808) := by
              omega
            simp only [hall, hne, he, and_false, if_false, if_true, hneg, decide_False,
              Bool.not_false, Bool.and_self, Bool.not_true, Bool.false_eq_true]
            rw [if_pos h2]
      · have hall2 : (unsignedPart (c :: cs)).all isDigit = false := by simpa using hall
        simp [hall2]
  · rw [if_neg hf]
    exact ParseInt_eq t

/-! ### `parseCacheControl` -/

theorem foldr_last_match {α β : Type} (pred : α → Bool) (g : α → β) (l : List α) (a : β) :
    l.foldr (fun x y => if pred x then g x else y) a =
      match l.find? pred with
      | none => a
      | some p => g p := by
  induction l with
  | nil => rfl
  | cons x xs ih =>
    by_cases hx : pred x = true
    · simp [List.find?_cons, hx]
    · have hx2 : pred x = false := by simpa using hx
      simp [List.find?_cons, hx2, ih]

theorem parseCacheControl_eq (h : String) :
    parseCacheControl h =
      match lastMaxAgeText h with
      | none => 0
      | some t => (atoiRef t).1 := by
  unfold parseCacheControl lastMaxAgeText
  generalize splitComma (removeSpaces h.toList) = ps
  have e : ps.foldl
      (fun maxAge p => if HasPrefix p "max-age=".toList then (Atoi (p.drop 8)).1 else maxAge) 0 =
      ps.reverse.foldr
        (fun p maxAge => if HasPrefix p "max-age=".toList then (Atoi (p.drop 8)).1 else maxAge)
        0 := by
    rw [List.foldr_reverse]
  rw [e, foldr_last_match (fun p => HasPrefix p "max-age=".toList)
    (fun p => (Atoi (p.drop 8)).1)]
  cases ps.reverse.find? (fun p => HasPrefix p "max-age=".toList) with
  | none => rfl
  | some p => simp [Atoi_eq]

theorem takeWhile_of_all (ds : List Char) (h : ds.all isDigit = true) :
    ds.takeWhile isDigit = ds := by
  induction ds with
  | nil => rfl
  | cons c cs ih =>
    simp only [List.all_cons, Bool.and_eq_true] at h
    simp [List.takeWhile_cons, h.1, ih h.2]

theorem not_digitsOverflow_of_isInt64 (t : List Char) (hv : isDecimalInteger t = true)
    (hr : isInt64 (decimalValue t)) : digitsOverflow t = false := by
  unfold isDecimalInteger at hv
  simp only [Bool.and_eq_true] at hv
  unfold isInt64 decimalValue at hr
  unfold digitsOverflow maxUint64
  rw [takeWhile_of_all _ hv.2]
  split_ifs at hr
  · simp only [decide_eq_false_iff_not]; omega
  · simp only [decide_eq_false_iff_not]; omega

/-- C9 (amended): `parseCacheControl h` is 0 when no piece of the header (spaces
deleted, split on `,`) starts with `max-age=`; otherwise, for the text `t` after
that prefix in the last such piece, it is the decimal value of `t` when `t` is a
syntactically valid integer in the int64 range, the int64 bound on the side of
its sign when `t` is a valid integer outside that range or when the digits at
the start of `t` overflow `uint64`, and 0 when `t` is not a valid integer and
its leading digits do not overflow.  So "public, max-age = 3600" gives 3600 and
"no-cache" and the empty header give 0. -/
theorem parseCacheControl_spec (h : String) :
    (lastMaxAgeText h = none → parseCacheControl h = 0) ∧
    (∀ t, lastMaxAgeText h = some t →
      (isDecimalInteger t = true → isInt64 (decimalValue t) →
        parseCacheControl h = decimalValue t) ∧
      (isDecimalInteger t = true → ¬ isInt64 (decimalValue t) →
        parseCacheControl h = clampInt64 t) ∧
      (isDecimalInteger t = false → digitsOverflow t = false → parseCacheControl h = 0) ∧
      (isDecimalInteger t = false → digitsOverflow t = true →
        parseCacheControl h = clampInt64 t)) ∧
    parseCacheControl "public, max-age = 3600" = 3600 ∧
    parseCacheControl "no-cache" = 0 ∧
    parseCacheControl "" = 0 := by
  refine ⟨?_, ?_, by decide, by decide, by decide⟩
  · intro h0
    rw [parseCacheControl_eq, h0]
  · intro t ht
    rw [parseCacheControl_eq, ht]
    refine ⟨?_, ?_, ?_, ?_⟩
    · intro hv hr
      have ho : digitsOverflow t = false := not_digitsOverflow_of_isInt64 t hv hr
      simp [atoiRef, ho, hv, hr]
    · intro hv hr
      by_cases ho : digitsOverflow t = true
      · simp [atoiRef, ho]
      · simp [atoiRef, ho, hv, hr]
    · intro hv ho
      simp [atoiRef, ho, hv]
    · intro _ ho
      simp [atoiRef, ho]

/-- Witness for C9: the header "max-age=5, max-age=+12" has the last directive
text "+12", a valid integer in range, and the result is 12. -/
theorem parseCacheControl_spec_witness :
    parseCacheControl "max-age=5, max-age=+12" = decimalValue "+12".toList :=
  ((parseCacheControl_spec "max-age=5, max-age=+12").2.1 "+12".toList (by decide)).1
    (by decide) (by decide)

/-- C9 as stated fails: in "max-age=99999999999999999999x" the text after the
prefix is not a syntactically valid integer, yet the result is not 0 but
`2^63 - 1`, because `strconv.Atoi` reports the overflow of the leading digits
before it reaches the `x`, and `parseCacheControl` keeps the value returned with
the error. -/
theorem parseCacheControl_invalid_text_nonzero :
    lastMaxAgeText "max-age=99999999999999999999x" = some "99999999999999999999x".toList ∧
    isDecimalInteger "99999999999999999999x".toList = false ∧
    parseCacheControl "max-age=99999999999999999999x" = 9223372036854775807 ∧
    parseCacheControl "max-age=99999999999999999999x" ≠ 0 := by
  decide

/-! ### `CertDefToEntryDef`: the serial -/

theorem fromHexChar_isSome (c : Char) : (fromHexChar c).isSome = isHexDigit c := by
  unfold fromHexChar isHexDigit
  by_cases h1 : '0' ≤ c ∧ c ≤ '9'
  · simp [h1]
  · by_cases h2 : 'a' ≤ c ∧ c ≤ 'f'
    · simp [h1, h2]
    · by_cases h3 : 'A' ≤ c ∧ c ≤ 'F'
      · simp [h1, h2, h3]
      · rw [if_neg h1, if_neg h2, if_neg h3]
        simp only [not_and] at h1 h2 h3
        simp only [Option.isSome_none, Bool.false_eq, Bool.or_eq_false_iff,
          Bool.and_eq_false_imp, decide_eq_true_eq, decide_eq_false_iff_not]
        exact ⟨⟨h1, h2⟩, h3⟩

theorem isValidHex_cons_cons (p q : Char) (rest : List Char) :
    isValidHex (p :: q :: rest) = (isHexDigit p && isHexDigit q && isValidHex rest) := by
  unfold isValidHex
  have e : decide ((p :: q :: rest).length % 2 = 0) = decide (rest.length % 2 = 0) := by
    simp only [List.length_cons, decide_eq_decide]
    omega
  rw [e]
  simp only [List.all_cons]
  cases decide (rest.length % 2 = 0) <;> cases isHexDigit p <;> cases isHexDigit q <;> simp

theorem hexDecode_isSome_aux : ∀ (n : Nat) (s : List Char), s.length ≤ n →
    (hexDecode s).isSome = isValidHex s := by
  intro n
  induction n with
  | zero =>
    intro s hs
    have : s = [] := List.length_eq_zero.mp (Nat.le_zero.mp hs)
    subst this
    rfl
  | succ n ih =>
    intro s hs
    match s with
    | [] => rfl
    | [c] => simp [hexDecode, isValidHex]
    | p :: q :: rest =>
      have hr : rest.length ≤ n := by
        simp only [List.length_cons] at hs
        omega
      have h0 := ih rest hr
      have h1 := fromHexChar_isSome p
      have h2 := fromHexChar_isSome q
      rw [isValidHex_cons_cons, ← h0, ← h1, ← h2]
      cases hp : fromHexChar p <;> cases hq : fromHexChar q <;> cases hd : hexDecode rest <;>
        simp [hexDecode, hp, hq, hd]

theorem hexDecode_isSome (s : List Char) : (hexDecode s).isSome = isValidHex s :=
  hexDecode_isSome_aux s.length s (le_refl _)

theorem SetBytes_foldl (bs : List Nat) : ∀ acc : Int,
    bs.foldl (fun (acc : Int) (b : Nat) => acc * 256 + (b : Int)) acc =
      acc * 256 ^ bs.length + bigEndianValue bs := by
  induction bs with
  | nil => intro acc; simp [bigEndianValue]
  | cons b bs ih =>
    intro acc
    simp only [List.foldl_cons, ih, bigEndianValue, List.length_cons, pow_succ]
    ring

theorem SetBytes_eq (bs : List Nat) : SetBytes bs = bigEndianValue bs := by
  unfold SetBytes
  rw [SetBytes_foldl]
  simp

theorem bigEndianValue_nonneg (bs : List Nat) : 0 ≤ bigEndianValue bs := by
  induction bs with
  | nil => exact le_refl 0
  | cons b bs ih =>
    unfold bigEndianValue
    positivity

theorem fromHexChar_ascii : ∀ n, n < 128 → ∀ a, a < 16 →
    fromHexChar (Char.ofNat n) = some a → hexDigitValue (Char.ofNat n) = a := by
  decide

theorem fromHexChar_value (c : Char) (a : Nat) (h : fromHexChar c = some a) :
    hexDigitValue c = a ∧ a < 16 := by
  have hb : c.toNat < 128 ∧ a < 16 := by
    unfold fromHexChar at h
    split_ifs at h with h1 h2 h3
    · obtain ⟨h4, h5⟩ := h1
      rw [Char.le_def] at h4 h5
      have h6 : c.toNat ≤ 57 := h5
      simp only [Option.some.injEq] at h
      omega
    · obtain ⟨h4, h5⟩ := h2
      rw [Char.le_def] at h4 h5
      have h6 : c.toNat ≤ 102 := h5
      simp only [Option.some.injEq] at h
      omega
    · obtain ⟨h4, h5⟩ := h3
      rw [Char.le_def] at h4 h5
      have h6 : c.toNat ≤ 70 := h5
      simp only [Option.some.injEq] at h
      omega
  have hc : Char.ofNat c.toNat = c := Char.ofNat_toNat c
  refine ⟨?_, hb.2⟩
  have := fromHexChar_ascii c.toNat hb.1 a hb.2 (by rw [hc]; exact h)
  rw [hc] at this
  exact this

theorem hexDecode_value_aux : ∀ (n : Nat) (s : List Char) (bytes : List Nat),
    s.length ≤ n → hexDecode s = some bytes →
    (∀ acc : Nat,
      ((s.foldl (fun acc c => acc * 16 + hexDigitValue c) acc : Nat) : Int) =
        bytes.foldl (fun (acc : Int) (b : Nat) => acc * 256 + (b : Int)) (acc : Int)) ∧
    bytes.length * 2 = s.length ∧ ∀ b ∈ bytes, b < 256 := by
  intro n
  induction n with
  | zero =>
    intro s bytes hs h
    have : s = [] := List.length_eq_zero.mp (Nat.le_zero.mp hs)
    subst this
    simp only [hexDecode, Option.some.injEq] at h
    subst h
    simp
  | succ n ih =>
    intro s bytes hs h
    match s with
    | [] =>
      simp only [hexDecode, Option.some.injEq] at h
      subst h
      simp
    | [c] => simp [hexDecode] at h
    | p :: q :: rest =>
      have hr : rest.length ≤ n := by
        simp only [List.length_cons] at hs
        omega
      cases hp : fromHexChar p with
      | none => simp [hexDecode, hp] at h
      | some a =>
        cases hq : fromHexChar q with
        | none => simp [hexDecode, hp, hq] at h
        | some b =>
          cases hd : hexDecode rest with
          | none => simp [hexDecode, hp, hq, hd] at h
          | some bs =>
            simp only [hexDecode, hp, hq, hd, Option.some.injEq] at h
            subst h
            obtain ⟨ha, ha16⟩ := fromHexChar_value p a hp
            obtain ⟨hb, hb16⟩ := fromHexChar_value q b hq
            obtain ⟨ih1, ih2, ih3⟩ := ih rest bs hr hd
            refine ⟨?_, ?_, ?_⟩
            · intro acc
              simp only [List.foldl_cons, ha, hb]
              rw [ih1]
              congr 1
              push_cast
              ring
            · simp only [List.length_cons]
              omega
            · intro x hx
              rcases List.mem_cons.mp hx with hx | hx
              · rw [hx]; omega
              · exact ih3 x hx

theorem hexDecode_value (s : List Char) (bytes : List Nat) (h : hexDecode s = some bytes) :
    SetBytes bytes = (hexValue s : Int) ∧ bytes.length * 2 = s.length ∧
      ∀ b ∈ bytes, b < 256 := by
  obtain ⟨h1, h2, h3⟩ := hexDecode_value_aux s.length s bytes (le_refl _) h
  refine ⟨?_, h2, h3⟩
  unfold SetBytes hexValue
  rw [h1 0]
  rfl

theorem entrySerial_ok (w : World) (timeout backoff : Int) (cacheFolder : String)
    (d : CertDefinition) (hS : d.Serial ≠ "") (ed : EntryDefinition)
    (cert : Option Certificate)
    (h : entrySerial w timeout backoff cacheFolder d = .ok (ed, cert)) :
    ∃ bytes, hexDecode d.Serial.toList = some bytes ∧ ed.Serial = SetBytes bytes := by
  unfold entrySerial at h
  simp only [hS, ne_eq, not_false_eq_true, if_true] at h
  split_ifs at h
  cases hd : hexDecode d.Serial.toList with
  | none => rw [hd] at h; cases h
  | some bytes =>
    rw [hd] at h
    simp only [Except.ok.injEq, Prod.mk.injEq] at h
    exact ⟨bytes, rfl, by rw [← h.1]⟩

theorem entryIssuer_ok_serial (w : World) (d : CertDefinition) (ed ed2 : EntryDefinition)
    (cert : Option Certificate) (h : entryIssuer w d ed cert = .ok ed2) :
    ed2.Serial = ed.Serial := by
  unfold entryIssuer at h
  simp only at h
  split at h
  · cases h
  · rename_i ed3 hstep
    split_ifs at h
    simp only [Except.ok.injEq] at h
    subst h
    split_ifs at hstep
    · split at hstep
      · cases hstep
      · simp only [Except.ok.injEq] at hstep
        rw [← hstep]
    · split at hstep
      · split_ifs at hstep
        simp only [Except.ok.injEq] at hstep
        rw [← hstep]
      · cases hstep

theorem entryResponders_ok_serial (w : World) (upstreamStapleds : List String) (proxy : String)
    (d : CertDefinition) (ed ed2 : EntryDefinition)
    (h : entryResponders w upstreamStapleds proxy d ed = .ok ed2) :
    ed2.Serial = ed.Serial := by
  unfold entryResponders at h
  simp only at h
  split_ifs at h <;> first
    | (simp only [Except.ok.injEq] at h; rw [← h])
    | (split at h <;> first
        | (simp only [Except.ok.injEq] at h; rw [← h])
        | cases h)

theorem CertDefToEntryDef_ok_serial (w : World) (timeout backoff : Int) (cacheFolder : String)
    (upstreamStapleds : List String) (proxy : String) (d : CertDefinition)
    (hS : d.Serial ≠ "") (ed : EntryDefinition)
    (h : CertDefToEntryDef w timeout backoff cacheFolder upstreamStapleds proxy d = .ok ed) :
    ∃ bytes, hexDecode d.Serial.toList = some bytes ∧ ed.Serial = SetBytes bytes := by
  unfold CertDefToEntryDef at h
  split at h
  · cases h
  · rename_i ed1 cert h1
    split at h
    · cases h
    · rename_i ed2 h2
      obtain ⟨bytes, hb, hs⟩ := entrySerial_ok w timeout backoff cacheFolder d hS ed1 cert h1
      refine ⟨bytes, hb, ?_⟩
      rw [entryResponders_ok_serial w upstreamStapleds proxy d ed2 ed h,
        entryIssuer_ok_serial w d ed1 ed2 cert h2, hs]

theorem CertDefToEntryDef_bad_serial (w : World) (timeout backoff : Int) (cacheFolder : String)
    (upstreamStapleds : List String) (proxy : String) (d : CertDefinition)
    (hS : d.Serial ≠ "") (hv : isValidHex d.Serial.toList = false) :
    ∃ e, CertDefToEntryDef w timeout backoff cacheFolder upstreamStapleds proxy d = .error e := by
  have hd : hexDecode d.Serial.toList = none := by
    have h := hexDecode_isSome d.Serial.toList
    rw [hv] at h
    cases h2 : hexDecode d.Serial.toList with
    | none => rfl
    | some b => rw [h2] at h; cases h
  unfold CertDefToEntryDef entrySerial
  simp only [hS, ne_eq, not_false_eq_true, if_true, hd]
  split_ifs <;> exact ⟨_, rfl⟩

/-- C7: for a definition with a non-empty `Serial` that `CertDefToEntryDef`
accepts, `def.Serial` is valid hexadecimal and the serial of the entry
definition is the number that text denotes in base 16: the non-negative integer
whose big-endian bytes are the hex-decoding of `def.Serial` (one byte below 256
for every two characters), whatever the certificate path, name, responders,
proxy and the other arguments are; leading zero bytes do not change the value,
"0102" decodes to the bytes 1, 2 and to 258; and when `def.Serial` is not valid
hexadecimal (odd length or a non-hex character) the call returns an error. -/
theorem CertDefToEntryDef_serial (w : World) (timeout backoff : Int) (cacheFolder : String)
    (upstreamStapleds : List String) (proxy : String) (d : CertDefinition)
    (hS : d.Serial ≠ "") :
    (∀ ed, CertDefToEntryDef w timeout backoff cacheFolder upstreamStapleds proxy d = .ok ed →
      isValidHex d.Serial.toList = true ∧
      ed.Serial = (hexValue d.Serial.toList : Int) ∧
      ∃ bytes, hexDecode d.Serial.toList = some bytes ∧
        bytes.length * 2 = d.Serial.toList.length ∧ (∀ b ∈ bytes, b < 256) ∧
        ed.Serial = bigEndianValue bytes ∧ 0 ≤ ed.Serial) ∧
    (isValidHex d.Serial.toList = false →
      ∃ e, CertDefToEntryDef w timeout backoff cacheFolder upstreamStapleds proxy d = .error e) ∧
    (∀ (w2 : World) (timeout2 backoff2 : Int) (cacheFolder2 : String)
        (upstreamStapleds2 : List String) (proxy2 : String) (d2 : CertDefinition)
        (ed ed2 : EntryDefinition),
      d2.Serial = d.Serial →
      CertDefToEntryDef w timeout backoff cacheFolder upstreamStapleds proxy d = .ok ed →
      CertDefToEntryDef w2 timeout2 backoff2 cacheFolder2 upstreamStapleds2 proxy2 d2 = .ok ed2 →
      ed2.Serial = ed.Serial) ∧
    (∀ bytes, bigEndianValue (0 :: bytes) = bigEndianValue bytes) ∧
    hexDecode "0102".toList = some [1, 2] ∧
    bigEndianValue [1, 2] = 258 ∧
    hexValue "0102".toList = 258 ∧
    hexValue "00ff".toList = 255 ∧
    hexValue "deadBEEF".toList = 3735928559 := by
  refine ⟨?_, ?_, ?_, ?_, by decide, by decide, by decide, by decide, by decide⟩
  · intro ed h
    obtain ⟨bytes, hb, hs⟩ :=
      CertDefToEntryDef_ok_serial w timeout backoff cacheFolder upstreamStapleds proxy d hS ed h
    obtain ⟨hv, hl, hlt⟩ := hexDecode_value d.Serial.toList bytes hb
    have hvalid : isValidHex d.Serial.toList = true := by
      rw [← hexDecode_isSome, hb]
      rfl
    refine ⟨hvalid, ?_, bytes, hb, hl, hlt, ?_, ?_⟩
    · rw [hs, hv]
    · rw [hs, SetBytes_eq]
    · rw [hs, SetBytes_eq]
      exact bigEndianValue_nonneg bytes
  · exact CertDefToEntryDef_bad_serial w timeout backoff cacheFolder upstreamStapleds proxy d hS
  · intro w2 timeout2 backoff2 cacheFolder2 upstreamStapleds2 proxy2 d2 ed ed2 hd h1 h2
    obtain ⟨b1, hb1, hs1⟩ :=
      CertDefToEntryDef_ok_serial w timeout backoff cacheFolder upstreamStapleds proxy d hS ed h1
    have hS2 : d2.Serial ≠ "" := by rw [hd]; exact hS
    obtain ⟨b2, hb2, hs2⟩ :=
      CertDefToEntryDef_ok_serial w2 timeout2 backoff2 cacheFolder2 upstreamStapleds2 proxy2 d2
        hS2 ed2 h2
    rw [hd, hb1] at hb2
    cases hb2
    rw [hs1, hs2]
  · intro bytes
    simp [bigEndianValue]

/-- Witness for C7: the definition with name "example", serial "0102", issuer
file "issuer.pem", one responder and no certificate path is accepted, and its
serial is 258, the base-16 value of "0102". -/
theorem CertDefToEntryDef_serial_witness :
    CertDefToEntryDef sampleWorld 10 10 "" [] ""
        ⟨"", "example", "", "issuer.pem", "0102", ["http://ocsp.test"], "", false, false⟩ =
      .ok ⟨"example", 10, 10, 258, "", some issuerA, ["http://ocsp.test"], none⟩ ∧
    (isValidHex "0102".toList = true ∧
      (258 : Int) = (hexValue "0102".toList : Int) ∧
      ∃ bytes, hexDecode "0102".toList = some bytes ∧
        bytes.length * 2 = "0102".toList.length ∧ (∀ b ∈ bytes, b < 256) ∧
        (258 : Int) = bigEndianValue bytes ∧ (0 : Int) ≤ 258) :=
  ⟨by decide,
    (CertDefToEntryDef_serial sampleWorld 10 10 "" [] ""
      ⟨"", "example", "", "issuer.pem", "0102", ["http://ocsp.test"], "", false, false⟩
      (by decide)).1
      ⟨"example", 10, 10, 258, "", some issuerA, ["http://ocsp.test"], none⟩ (by decide)⟩

/-! ### `CertDefToEntryDef`: the issuer -/

/-- C6 (the code at the failing inputs): for a certificate whose two AIA URLs
both serve an issuer, the entry definition gets the issuer served by the second
URL, not the first; and when the first URL serves an issuer and the second a
body that does not parse, construction fails with "unable to retrieve issuer". -/
theorem CertDefToEntryDef_aia_last_url_decides :
    CertDefToEntryDef sampleWorld 10 10 "" [] ""
        ⟨"leaf.pem", "", "", "", "", [], "", false, false⟩ =
      .ok ⟨"leaf.pem", 10, 10, 4660, "", some issuerB, ["http://ocsp.test"], none⟩ ∧
    sampleWorld.ParseCertificate [1] = (some issuerA, none) ∧
    sampleWorld.Get "http://aia.test/a" = .body [1] ∧
    issuerA ≠ issuerB ∧
    CertDefToEntryDef sampleWorld 10 10 "" [] ""
        ⟨"leaf2.pem", "", "", "", "", [], "", false, false⟩ =
      .error ⟨"unable to retrieve issuer", []⟩ := by
  decide

/-! ### `Fetch` -/

theorem mulDuration_ten : mulDuration 10 Second = 10000000000 := by
  norm_num [mulDuration, Second, wrapInt64]

theorem retryBackoff_eq (ra : String) :
    mulDuration
        (if ra ≠ "" then
          match Atoi ra.toList with
          | (seconds, none) => if seconds > 0 then seconds else 10
          | (_, some _) => 10
        else 10) Second =
      if isDecimalInteger ra.toList = true ∧ 0 < decimalValue ra.toList ∧
          isInt64 (decimalValue ra.toList) then
        wrapInt64 (decimalValue ra.toList * 1000000000)
      else 10000000000 := by
  by_cases he : ra = ""
  · subst he
    have h0 : "".toList = ([] : List Char) := rfl
    have h1 : isDecimalInteger ([] : List Char) = false := by decide
    simp [h0, h1, mulDuration_ten]
  · simp only [ne_eq, he, not_false_eq_true, if_true, Atoi_eq]
    unfold atoiRef
    by_cases ho : digitsOverflow ra.toList = true
    · have hv : ¬ (isDecimalInteger ra.toList = true ∧ 0 < decimalValue ra.toList ∧
          isInt64 (decimalValue ra.toList)) := by
        rintro ⟨h1, _, h3⟩
        have := not_digitsOverflow_of_isInt64 _ h1 h3
        rw [ho] at this
        cases this
      simp only [ho, if_true, if_neg hv, mulDuration_ten]
    · have ho2 : digitsOverflow ra.toList = false := by simpa using ho
      simp only [ho2, Bool.false_eq_true, if_false]
      by_cases hd : isDecimalInteger ra.toList = true
      · simp only [hd, Bool.not_true, Bool.false_eq_true, if_false, true_and]
        by_cases hr : isInt64 (decimalValue ra.toList)
        · simp only [hr, if_true, and_true]
          by_cases hp : 0 < decimalValue ra.toList
          · have hp2 : decimalValue ra.toList > 0 := hp
            simp only [hp, hp2, if_true, mulDuration, Second]
          · have hp2 : ¬ decimalValue ra.toList > 0 := hp
            simp only [hp, hp2, if_false, mulDuration_ten]
        · simp only [hr, if_false, and_false, mulDuration_ten]
      · have hd2 : isDecimalInteger ra.toList = false := by simpa using hd
        simp only [hd2, Bool.not_false, if_true, Bool.false_eq_true, false_and, if_false,
          mulDuration_ten]

theorem timerDelays_after (d : Int) (req : HttpRequest) (r : FetchRun) :
    timerDelays (r.after [.timer d, .send req]).events = d :: timerDelays r.events := by
  simp [FetchRun.after, timerDelays]

theorem result_after (evs : List Event) (r : FetchRun) : (r.after evs).result = r.result := rfl

theorem retryDelay_reply (r : HttpResponse) :
    retryDelay (.reply r) =
      if r.StatusCode ≠ 200 ∧ r.StatusCode ≠ 304 ∧ isDecimalInteger r.RetryAfter.toList = true ∧
          0 < decimalValue r.RetryAfter.toList ∧ isInt64 (decimalValue r.RetryAfter.toList) then
        wrapInt64 (decimalValue r.RetryAfter.toList * 1000000000)
      else 10000000000 := rfl

theorem fetchLoop_failed_step (env : FetchEnv) (responder : String) (request : List Nat)
    (etag : String) (hreq : ∀ u, env.NewRequestErr u = none) (b : Int) (s : Step)
    (rest : List Step) (hf : isFailedAttempt env s = true) :
    ∃ b2 : Int, mulDuration b2 Second = retryDelay s ∧
      fetchLoop env responder request etag b (s :: rest) =
        (fetchLoop env responder request etag b2 rest).after
          [.timer (mulDuration b Second), .send (buildRequest responder request etag)] := by
  cases s with
  | ctxDone => simp [isFailedAttempt] at hf
  | doErr =>
    refine ⟨10, ?_, ?_⟩
    · simp [retryDelay, mulDuration_ten]
    · simp [fetchLoop, hreq]
  | reply r =>
    by_cases hs : r.StatusCode ≠ 200 ∧ r.StatusCode ≠ 304
    · refine ⟨_, retryBackoff_eq r.RetryAfter |>.trans ?_, ?_⟩
      · rw [retryDelay_reply]
        by_cases hc : isDecimalInteger r.RetryAfter.toList = true ∧
            0 < decimalValue r.RetryAfter.toList ∧ isInt64 (decimalValue r.RetryAfter.toList)
        · have hc2 : r.StatusCode ≠ 200 ∧ r.StatusCode ≠ 304 ∧
              isDecimalInteger r.RetryAfter.toList = true ∧
              0 < decimalValue r.RetryAfter.toList ∧
              isInt64 (decimalValue r.RetryAfter.toList) := ⟨hs.1, hs.2, hc⟩
          rw [if_pos hc, if_pos hc2]
        · have hc2 : ¬ (r.StatusCode ≠ 200 ∧ r.StatusCode ≠ 304 ∧
              isDecimalInteger r.RetryAfter.toList = true ∧
              0 < decimalValue r.RetryAfter.toList ∧
              isInt64 (decimalValue r.RetryAfter.toList)) := fun h => hc h.2.2
          rw [if_neg hc, if_neg hc2]
      · simp only [fetchLoop, hreq, if_pos hs]
    · have hd : retryDelay (.reply r) = 10000000000 := by
        rw [retryDelay_reply, if_neg (fun h => hs ⟨h.1, h.2.1⟩)]
      refine ⟨10, by rw [hd, mulDuration_ten], ?_⟩
      simp only [isFailedAttempt, if_neg hs] at hf
      simp only [fetchLoop, hreq, if_neg hs]
      cases hb : r.Body with
      | none => rfl
      | some body =>
        rw [hb] at hf
        simp only at hf ⊢
        cases hp : env.ParseResponse body with
        | ok v => rw [hp] at hf; simp at hf
        | error e =>
          cases e <;> rfl

theorem fetchLoop_terminal_step (env : FetchEnv) (responder : String) (request : List Nat)
    (etag : String) (hreq : ∀ u, env.NewRequestErr u = none) (b : Int) (s : Step)
    (rest : List Step) (hf : isFailedAttempt env s = false) :
    timerDelays (fetchLoop env responder request etag b (s :: rest)).events =
        [mulDuration b Second] ∧
    ((s = .ctxDone ∧ (fetchLoop env responder request etag b (s :: rest)).result =
        some (.error (.ctx env.ctxErr))) ∨
      ∃ r body resp, s = .reply r ∧ (r.StatusCode = 200 ∨ r.StatusCode = 304) ∧
        r.Body = some body ∧ env.ParseResponse body = .ok resp ∧
        (fetchLoop env responder request etag b (s :: rest)).result =
          some (.ok ⟨resp, body, r.ETag, parseCacheControl r.CacheControl⟩)) := by
  cases s with
  | ctxDone => exact ⟨by simp [fetchLoop, timerDelays], Or.inl ⟨rfl, rfl⟩⟩
  | doErr => simp [isFailedAttempt] at hf
  | reply r =>
    by_cases hs : r.StatusCode ≠ 200 ∧ r.StatusCode ≠ 304
    · simp [isFailedAttempt, hs] at hf
    · simp only [isFailedAttempt, if_neg hs] at hf
      have hst : r.StatusCode = 200 ∨ r.StatusCode = 304 := by
        by_contra hc
        exact hs ⟨fun h => hc (Or.inl h), fun h => hc (Or.inr h)⟩
      cases hb : r.Body with
      | none => rw [hb] at hf; simp at hf
      | some body =>
        rw [hb] at hf
        simp only at hf
        cases hp : env.ParseResponse body with
        | error e => rw [hp] at hf; simp at hf
        | ok resp =>
          refine ⟨?_, Or.inr ⟨r, body, resp, rfl, hst, hb, hp, ?_⟩⟩
          · simp [fetchLoop, hreq, if_neg hs, hb, hp, timerDelays]
          · simp [fetchLoop, hreq, if_neg hs, hb, hp]

theorem fetchLoop_timers (env : FetchEnv) (responder : String) (request : List Nat)
    (etag : String) (hreq : ∀ u, env.NewRequestErr u = none) (steps : List Step) :
    ∀ b : Int, timerDelays (fetchLoop env responder request etag b steps).events =
      (mulDuration b Second :: (steps.takeWhile (isFailedAttempt env)).map retryDelay).take
        steps.length := by
  induction steps with
  | nil => intro b; simp [fetchLoop, timerDelays]
  | cons s rest ih =>
    intro b
    by_cases hf : isFailedAttempt env s = true
    · obtain ⟨b2, hb2, heq⟩ := fetchLoop_failed_step env responder request etag hreq b s rest hf
      rw [heq, timerDelays_after, ih b2, hb2]
      simp [List.takeWhile_cons, hf]
    · have hf2 : isFailedAttempt env s = false := by simpa using hf
      rw [(fetchLoop_terminal_step env responder request etag hreq b s rest hf2).1]
      simp [List.takeWhile_cons, hf2]

theorem fetchLoop_sends (env : FetchEnv) (responder : String) (request : List Nat)
    (etag : String) (steps : List Step) :
    ∀ (b : Int) (req : HttpRequest),
      Event.send req ∈ (fetchLoop env responder request etag b steps).events →
      req = buildRequest responder request etag := by
  induction steps with
  | nil => intro b req h; simp [fetchLoop] at h
  | cons s rest ih =>
    intro b req h
    have key : ∀ b2 : Int, Event.send req ∈
        ((fetchLoop env responder request etag b2 rest).after
          [.timer (mulDuration b Second), .send (buildRequest responder request etag)]).events →
        req = buildRequest responder request etag := by
      intro b2 h2
      simp only [FetchRun.after, List.cons_append, List.nil_append, List.mem_cons,
        Event.send.injEq, reduceCtorEq, false_or] at h2
      rcases h2 with h2 | h2
      · exact h2
      · exact ih b2 req h2
    cases s with
    | ctxDone => simp [fetchLoop] at h
    | doErr =>
      simp only [fetchLoop] at h
      split at h
      · simp at h
      · exact key _ h
    | reply r =>
      simp only [fetchLoop] at h
      repeat' first
        | exact key _ h
        | (simp at h; done)
        | (simp at h; exact h)
        | split at h

theorem escape_alphabet_char : ∀ i, i < 64 →
    QueryEscape [encodeStd.getD i 'A'] = escapeBase64 [encodeStd.getD i 'A'] := by
  decide

theorem escape_pad_char : QueryEscape ['='] = escapeBase64 ['='] := by decide

theorem escape_of_forall (s : List Char)
    (h : ∀ c ∈ s, QueryEscape [c] = escapeBase64 [c]) : QueryEscape s = escapeBase64 s := by
  induction s with
  | nil => rfl
  | cons c s ih =>
    have h1 : QueryEscape (c :: s) = QueryEscape [c] ++ QueryEscape s := by
      simp [QueryEscape]
    have h2 : escapeBase64 (c :: s) = escapeBase64 [c] ++ escapeBase64 s := by
      simp [escapeBase64]
    rw [h1, h2, h c (by simp), ih (fun x hx => h x (by simp [hx]))]

theorem base64_chars_aux : ∀ (n : Nat) (request : List Nat), request.length ≤ n →
    (∀ b ∈ request, b < 256) →
    ∀ c ∈ base64Encode encodeStd request, QueryEscape [c] = escapeBase64 [c] := by
  intro n
  induction n with
  | zero =>
    intro request hl _ c hc
    have : request = [] := List.length_eq_zero.mp (Nat.le_zero.mp hl)
    subst this
    simp [base64Encode] at hc
  | succ n ih =>
    intro request hl hb x hx
    match request with
    | [] => simp [base64Encode] at hx
    | [a] =>
      have ha : a < 256 := hb a (by simp)
      simp only [base64Encode, List.mem_cons, List.not_mem_nil, or_false] at hx
      rcases hx with hx | hx | hx | hx
      · rw [hx]; exact escape_alphabet_char _ (by omega)
      · rw [hx]; exact escape_alphabet_char _ (by omega)
      · rw [hx]; exact escape_pad_char
      · rw [hx]; exact escape_pad_char
    | [a, b] =>
      have ha : a < 256 := hb a (by simp)
      have hb2 : b < 256 := hb b (by simp)
      simp only [base64Encode, List.mem_cons, List.not_mem_nil, or_false] at hx
      rcases hx with hx | hx | hx | hx
      · rw [hx]; exact escape_alphabet_char _ (by omega)
      · rw [hx]; exact escape_alphabet_char _ (by omega)
      · rw [hx]; exact escape_alphabet_char _ (by omega)
      · rw [hx]; exact escape_pad_char
    | a :: b :: c :: rest =>
      have ha : a < 256 := hb a (by simp)
      have hb2 : b < 256 := hb b (by simp)
      have hc : c < 256 := hb c (by simp)
      have hr : rest.length ≤ n := by
        simp only [List.length_cons] at hl
        omega
      simp only [base64Encode, List.mem_cons] at hx
      rcases hx with hx | hx | hx | hx | hx
      · rw [hx]; exact escape_alphabet_char _ (by omega)
      · rw [hx]; exact escape_alphabet_char _ (by omega)
      · rw [hx]; exact escape_alphabet_char _ (by omega)
      · rw [hx]; exact escape_alphabet_char _ (by omega)
      · exact ih rest hr (fun y hy => hb y (by simp [hy])) x hx

theorem QueryEscape_base64 (request : List Nat) (hb : ∀ b ∈ request, b < 256) :
    QueryEscape (base64Encode encodeStd request) =
      escapeBase64 (base64Encode encodeStd request) :=
  escape_of_forall _ (base64_chars_aux request.length request (le_refl _) hb)

theorem randomResponder_some (rnd : Nat) (responders : List String) (h : responders ≠ []) :
    ∃ responder, responder ∈ responders ∧ randomResponder rnd responders = some responder := by
  have hpos : 0 < responders.length := List.length_pos.mpr h
  have hlt : rnd % responders.length < responders.length := Nat.mod_lt _ hpos
  refine ⟨responders.get ⟨rnd % responders.length, hlt⟩, List.get_mem _ _ _, ?_⟩
  unfold randomResponder
  rw [if_neg (by omega), List.get?_eq_get hlt]

theorem mulDuration_zero : mulDuration 0 Second = 0 := by
  norm_num [mulDuration, Second, wrapInt64]

/-- C3 (amended): the first attempt of `Fetch` is made after a zero delay, and
the delay before the attempt that follows a failed attempt is `retryDelay` of
the failed attempt: 10 seconds after a network error and after any reply with
status 200 or 304 (unreadable or unparsable body), whatever its `Retry-After`
header; for a reply with another status, `n` seconds when `Retry-After` is a
decimal integer `n` with `0 < n ≤ 9223372036`, and 10 seconds when the header is
absent, not an integer, not positive or outside int64. -/
theorem Fetch_retry_delays (env : FetchEnv) (rnd : Nat) (responders : List String)
    (request : List Nat) (etag : String) (steps : List Step) (hne : responders ≠ [])
    (hreq : ∀ u, env.NewRequestErr u = none) :
    (∃ run, Fetch env rnd responders request etag steps = some run ∧
      timerDelays run.events =
        ((0 : Int) :: (steps.takeWhile (isFailedAttempt env)).map retryDelay).take
          steps.length) ∧
    retryDelay .doErr = 10 * Second ∧
    (∀ r : HttpResponse, r.StatusCode = 200 ∨ r.StatusCode = 304 →
      retryDelay (.reply r) = 10 * Second) ∧
    (∀ r : HttpResponse, r.StatusCode ≠ 200 → r.StatusCode ≠ 304 →
      isDecimalInteger r.RetryAfter.toList = true → 0 < decimalValue r.RetryAfter.toList →
      decimalValue r.RetryAfter.toList ≤ 9223372036 →
      retryDelay (.reply r) = decimalValue r.RetryAfter.toList * Second) ∧
    (∀ r : HttpResponse, r.StatusCode ≠ 200 → r.StatusCode ≠ 304 →
      (isDecimalInteger r.RetryAfter.toList = false ∨ decimalValue r.RetryAfter.toList ≤ 0 ∨
        ¬ isInt64 (decimalValue r.RetryAfter.toList)) →
      retryDelay (.reply r) = 10 * Second) := by
  refine ⟨?_, ?_, ?_, ?_, ?_⟩
  · obtain ⟨responder, _, hr⟩ := randomResponder_some rnd responders hne
    refine ⟨fetchLoop env responder request etag 0 steps, by simp [Fetch, hr], ?_⟩
    rw [fetchLoop_timers env responder request etag hreq steps 0, mulDuration_zero]
  · simp [retryDelay, Second]
  · intro r hs
    rw [retryDelay_reply, if_neg]
    · simp [Second]
    · rintro ⟨h1, h2, _⟩
      rcases hs with hs | hs
      · exact h1 hs
      · exact h2 hs
  · intro r h1 h2 h3 h4 h5
    have h6 : isInt64 (decimalValue r.RetryAfter.toList) := by
      unfold isInt64; omega
    rw [retryDelay_reply, if_pos ⟨h1, h2, h3, h4, h6⟩]
    unfold Second
    exact wrapInt64_of_isInt64 _ (by unfold isInt64; omega)
  · intro r _ _ h3
    rw [retryDelay_reply, if_neg]
    · simp [Second]
    · rintro ⟨_, _, h4, h5, h6⟩
      rcases h3 with h3 | h3 | h3
      · rw [h4] at h3; cases h3
      · omega
      · exact h3 h6

/-- Witness for C3: a 503 reply with `Retry-After: 30`, then a network error,
then cancellation. -/
theorem Fetch_retry_delays_witness :
    ∃ run, Fetch junkEnv 0 ["http://ocsp.test"] [48] ""
        [.reply ⟨503, "30", "", "", none⟩, .doErr, .ctxDone] = some run ∧
      timerDelays run.events =
        ((0 : Int) ::
          (([.reply ⟨503, "30", "", "", none⟩, .doErr, .ctxDone] : List Step).takeWhile
            (isFailedAttempt junkEnv)).map retryDelay).take
          ([.reply ⟨503, "30", "", "", none⟩, .doErr, .ctxDone] : List Step).length :=
  (Fetch_retry_delays junkEnv 0 ["http://ocsp.test"] [48] ""
    [.reply ⟨503, "30", "", "", none⟩, .doErr, .ctxDone] (by decide) (fun _ => rfl)).1

/-- C3 as stated fails: after a reply with status 200, `Retry-After: 30` and a
body that does not parse, the next attempt is delayed by 10 s, not 30 s; and
after a 503 reply with `Retry-After: 9223372037` the timer duration is the
wrapped product, a negative number of nanoseconds, not 9223372037 s. -/
theorem Fetch_retry_after_not_always_used :
    (Fetch junkEnv 0 ["http://ocsp.test"] [48] ""
        [.reply ⟨200, "30", "", "", some [48]⟩, .doErr]).map (fun run => timerDelays run.events) =
      some [0, 10000000000] ∧
    isFailedAttempt junkEnv (.reply ⟨200, "30", "", "", some [48]⟩) = true ∧
    (Fetch junkEnv 0 ["http://ocsp.test"] [48] ""
        [.reply ⟨503, "9223372037", "", "", none⟩, .doErr]).map
          (fun run => timerDelays run.events) =
      some [0, -9223372036709551616] := by
  decide

theorem fetchLoop_result_after_failed (env : FetchEnv) (responder : String)
    (request : List Nat) (etag : String) (hreq : ∀ u, env.NewRequestErr u = none)
    (pre : List Step) (hpre : ∀ s ∈ pre, isFailedAttempt env s = true) (rest : List Step) :
    ∀ b : Int, ∃ b2 : Int,
      (fetchLoop env responder request etag b (pre ++ rest)).result =
        (fetchLoop env responder request etag b2 rest).result := by
  induction pre with
  | nil => intro b; exact ⟨b, rfl⟩
  | cons s pre ih =>
    intro b
    obtain ⟨b1, _, heq⟩ := fetchLoop_failed_step env responder request etag hreq b s
      (pre ++ rest) (hpre s (by simp))
    obtain ⟨b2, h2⟩ := ih (fun x hx => hpre x (by simp [hx])) b1
    exact ⟨b2, by rw [List.cons_append, heq, result_after, h2]⟩

theorem fetchLoop_ok_decompose (env : FetchEnv) (responder : String) (request : List Nat)
    (etag : String) (hreq : ∀ u, env.NewRequestErr u = none) (steps : List Step) :
    ∀ (b : Int) (out : FetchOk),
      (fetchLoop env responder request etag b steps).result = some (.ok out) →
      ∃ pre r rest, steps = pre ++ .reply r :: rest ∧
        (∀ s ∈ pre, isFailedAttempt env s = true) ∧
        (r.StatusCode = 200 ∨ r.StatusCode = 304) ∧ r.Body = some out.body ∧
        env.ParseResponse out.body = .ok out.resp ∧ out.eTag = r.ETag ∧
        out.maxAge = parseCacheControl r.CacheControl := by
  induction steps with
  | nil => intro b out h; simp [fetchLoop] at h
  | cons s rest ih =>
    intro b out h
    by_cases hf : isFailedAttempt env s = true
    · obtain ⟨b2, _, heq⟩ := fetchLoop_failed_step env responder request etag hreq b s rest hf
      rw [heq, result_after] at h
      obtain ⟨pre, r, rest2, h1, h2, h3⟩ := ih b2 out h
      refine ⟨s :: pre, r, rest2, by rw [h1, List.cons_append], ?_, h3⟩
      intro x hx
      rcases List.mem_cons.mp hx with hx | hx
      · rw [hx]; exact hf
      · exact h2 x hx
    · have hf2 : isFailedAttempt env s = false := by simpa using hf
      rcases (fetchLoop_terminal_step env responder request etag hreq b s rest hf2).2 with
        ⟨_, h2⟩ | ⟨r, body, resp, hs, hst, hb, hp, hres⟩
      · rw [h2] at h; cases h
      · rw [hres] at h
        simp only [Option.some.injEq, Except.ok.injEq] at h
        subst h
        exact ⟨[], r, rest, by rw [hs, List.nil_append], by simp, hst, hb, hp, rfl, rfl⟩

/-- C2 (amended): `Fetch` makes no freshness check.  It returns, with a nil
error, the parsed response of the first reply with status 200 or 304 whose body
can be read and parses as an OCSP response, whatever the `ThisUpdate` and
`NextUpdate` of that response are, once every earlier attempt has failed; and
whenever it returns a nil error the returned values come from such a reply. -/
theorem Fetch_returns_first_parsed (env : FetchEnv) (rnd : Nat) (responders : List String)
    (request : List Nat) (etag : String) (hne : responders ≠ [])
    (hreq : ∀ u, env.NewRequestErr u = none) :
    (∀ (pre : List Step) (r : HttpResponse) (rest : List Step) (body : List Nat)
        (resp : Response),
      (∀ s ∈ pre, isFailedAttempt env s = true) →
      (r.StatusCode = 200 ∨ r.StatusCode = 304) → r.Body = some body →
      env.ParseResponse body = .ok resp →
      ∃ run, Fetch env rnd responders request etag (pre ++ .reply r :: rest) = some run ∧
        run.result = some (.ok ⟨resp, body, r.ETag, parseCacheControl r.CacheControl⟩)) ∧
    (∀ (steps : List Step) (run : FetchRun) (out : FetchOk),
      Fetch env rnd responders request etag steps = some run →
      run.result = some (.ok out) →
      ∃ pre r rest, steps = pre ++ .reply r :: rest ∧
        (∀ s ∈ pre, isFailedAttempt env s = true) ∧
        (r.StatusCode = 200 ∨ r.StatusCode = 304) ∧ r.Body = some out.body ∧
        env.ParseResponse out.body = .ok out.resp ∧ out.eTag = r.ETag ∧
        out.maxAge = parseCacheControl r.CacheControl) := by
  obtain ⟨responder, _, hr⟩ := randomResponder_some rnd responders hne
  constructor
  · intro pre r rest body resp hpre hst hb hp
    refine ⟨fetchLoop env responder request etag 0 (pre ++ .reply r :: rest),
      by simp only [Fetch, hr], ?_⟩
    obtain ⟨b2, h2⟩ := fetchLoop_result_after_failed env responder request etag hreq pre hpre
      (.reply r :: rest) 0
    rw [h2]
    have hs : ¬ (r.StatusCode ≠ 200 ∧ r.StatusCode ≠ 304) := by
      rintro ⟨h1, h3⟩
      rcases hst with hst | hst
      · exact h1 hst
      · exact h3 hst
    simp [fetchLoop, hreq, if_neg hs, hb, hp]
  · intro steps run out hrun hres
    simp only [Fetch, hr, Option.some.injEq] at hrun
    subst hrun
    exact fetchLoop_ok_decompose env responder request etag hreq steps 0 out hres

/-- Witness for C2: after a 503 reply, a 200 reply whose body parses to a
response that expired at 3600 s is returned. -/
theorem Fetch_returns_first_parsed_witness :
    ∃ run, Fetch staleEnv 0 ["http://ocsp.test"] [48] ""
        ([.reply ⟨503, "", "", "", none⟩] ++
          .reply ⟨200, "", "v1", "max-age=60", some [48]⟩ :: []) = some run ∧
      run.result = some (.ok ⟨⟨0, 3600000000000, 258⟩, [48], "v1",
        parseCacheControl "max-age=60"⟩) :=
  (Fetch_returns_first_parsed staleEnv 0 ["http://ocsp.test"] [48] "" (by decide)
    (fun _ => rfl)).1 [.reply ⟨503, "", "", "", none⟩] ⟨200, "", "v1", "max-age=60", some [48]⟩ []
    [48] ⟨0, 3600000000000, 258⟩ (by decide) (by decide) rfl rfl

/-- C2 as stated fails: at the instant 7200 s, a 200 reply whose body parses to
a response with `NextUpdate` = 3600 s is returned by `Fetch` with a nil error,
although `VerifyResponse` rejects that response as stale. -/
theorem Fetch_returns_stale_response :
    (Fetch staleEnv 0 ["http://ocsp.test"] [48] ""
        [.reply ⟨200, "", "v1", "max-age=60", some [48]⟩]).map (fun run => run.result) =
      some (some (.ok ⟨⟨0, 3600000000000, 258⟩, [48], "v1", 60⟩)) ∧
    VerifyResponse 7200000000000 258 ⟨0, 3600000000000, 258⟩ =
      some ⟨"stale OCSP response: NextUpdate is in the past (%s before %s)",
        [.time 3600000000000, .time 7200000000000]⟩ ∧
    ((3600000000000 : Int) < 7200000000000) := by
  decide

/-- C8 (amended): every HTTP request `Fetch` sends is a GET whose URL is the
chosen responder, a `/`, and the query-escaped standard base64 encoding (with
padding) of the request bytes, so that `+`, `/` and `=` appear as `%2B`, `%2F`
and `%3D`; it carries the single header `If-None-Match: etag` when `etag` is
non-empty and no header when `etag` is empty. -/
theorem Fetch_request_shape (env : FetchEnv) (rnd : Nat) (responders : List String)
    (request : List Nat) (etag : String) (steps : List Step) (hne : responders ≠ [])
    (hb : ∀ b ∈ request, b < 256) :
    ∃ responder run, responder ∈ responders ∧
      Fetch env rnd responders request etag steps = some run ∧
      ∀ req, Event.send req ∈ run.events →
        req.method = "GET" ∧
        req.url = responder ++ "/" ++ String.mk (QueryEscape (base64Encode encodeStd request)) ∧
        req.url = responder ++ "/" ++ String.mk (escapeBase64 (base64Encode encodeStd request)) ∧
        (etag ≠ "" → req.header = [("If-None-Match", etag)]) ∧
        (etag = "" → req.header = []) := by
  obtain ⟨responder, hmem, hr⟩ := randomResponder_some rnd responders hne
  refine ⟨responder, fetchLoop env responder request etag 0 steps, hmem,
    by simp only [Fetch, hr], ?_⟩
  intro req hreq
  have h := fetchLoop_sends env responder request etag steps 0 req hreq
  subst h
  refine ⟨rfl, rfl, ?_, ?_, ?_⟩
  · simp only [buildRequest, QueryEscape_base64 request hb]
  · intro he
    simp [buildRequest, he]
  · intro he
    simp [buildRequest, he]

/-- Witness for C8: the request bytes `fb ff bf` and the etag "v1". -/
theorem Fetch_request_shape_witness :
    ∃ responder run, responder ∈ ["http://ocsp.test"] ∧
      Fetch junkEnv 0 ["http://ocsp.test"] [251, 255, 191] "v1" [.doErr, .ctxDone] = some run ∧
      ∀ req, Event.send req ∈ run.events →
        req.method = "GET" ∧
        req.url = responder ++ "/" ++
          String.mk (QueryEscape (base64Encode encodeStd [251, 255, 191])) ∧
        req.url = responder ++ "/" ++
          String.mk (escapeBase64 (base64Encode encodeStd [251, 255, 191])) ∧
        (("v1" : String) ≠ "" → req.header = [("If-None-Match", "v1")]) ∧
        (("v1" : String) = "" → req.header = []) :=
  Fetch_request_shape junkEnv 0 ["http://ocsp.test"] [251, 255, 191] "v1" [.doErr, .ctxDone]
    (by decide) (by decide)

/-- C8 as stated fails: for the request bytes `fb ff bf` the URL sent is
"http://ocsp.test/%2B%2F%2B%2F", whereas the base64url encoding of these bytes
is "-_-_". -/
theorem Fetch_url_is_not_base64url :
    (Fetch junkEnv 0 ["http://ocsp.test"] [251, 255, 191] "" [.doErr]).map
        (fun run => run.events) =
      some [.timer 0, .send ⟨"GET", "http://ocsp.test/%2B%2F%2B%2F", []⟩] ∧
    "http://ocsp.test" ++ "/" ++ String.mk (base64Encode encodeURL [251, 255, 191]) =
      "http://ocsp.test/-_-_" ∧
    ("http://ocsp.test/%2B%2F%2B%2F" : String) ≠ "http://ocsp.test/-_-_" := by
  decide

end Stapled
